import Mathlib

/-!
Shallow embedding of the Safe transaction processor
(`safe_transaction_service/history/indexers/tx_processor.py`) and the model
methods it relies on (`safe_transaction_service/history/models.py`), together
with theorems settling the frozen claims about the processor's behaviour.

Conventions of the embedding:
* Ethereum addresses are natural numbers, with `0` standing for
  `NULL_ADDRESS`; byte strings (hashes, signatures, log data) are `List Nat`.
* Database tables are lists of records inside a `DB` structure; Django
  `get_or_create` / `update` / `delete` calls become pure functions on `DB`.
* The in-process `safe_last_status_cache` dict is an association list.
* External collaborators (tracing client, signature parser, safe-tx hashing,
  chain id, failure-event topics, account-abstraction detector) are fields of
  an `Env` record, since their implementations live outside the repository.
* Python exceptions become an explicit error type `PErr`; a processing step
  returns `Except PErr Bool × ProcState` so that partial state mutations made
  before a raise are kept, exactly as in the source (inside a batch there is
  no per-call rollback).
-/

deriving instance DecidableEq for Except

namespace SafeTxService

/-- Ethereum address, `0` = `NULL_ADDRESS`. -/
abbrev Addr := Nat

/-- NULL_ADDRESS constant (`safe_eth.eth.constants.NULL_ADDRESS`). -/
def NULL_ADDRESS : Addr := 0

/-! ### Versions

Model of `packaging.version.Version` as used by
`SafeTxProcessor.is_version_breaking_signatures` (tx_processor.py lines
249-267).  Only `base_version` data (epoch + release tuple) takes part in any
comparison there, because the source wraps both inputs in
`Version(Version(x).base_version)` first; the `suffix` flag records whether
the original version string carried pre/post/dev/local parts that
`base_version` strips. -/
structure PVersion where
  epoch : Nat := 0
  release : List Nat := []
  suffix : Bool := false
deriving DecidableEq, Repr

/-- `Version(v.base_version)`: drop everything but epoch and release. -/
def baseVersion (v : PVersion) : PVersion :=
  { epoch := v.epoch, release := v.release, suffix := false }

/-- Three-way comparison on naturals. -/
def cmpNat (a b : Nat) : Ordering :=
  if a < b then .lt else if b < a then .gt else .eq

/-- PEP 440 release-tuple comparison: componentwise, padding the shorter
tuple with zeros (so `1.0` equals `1.0.0`). -/
def cmpRelease : List Nat → List Nat → Ordering
  | [], [] => .eq
  | [], b :: bs => if (b :: bs).all (· == 0) then .eq else .lt
  | a :: as, [] => if (a :: as).all (· == 0) then .eq else .gt
  | a :: as, b :: bs =>
    match cmpNat a b with
    | .eq => cmpRelease as bs
    | o => o

/-- Comparison of base versions: epoch, then release tuple. -/
def cmpVersion (a b : PVersion) : Ordering :=
  match cmpNat a.epoch b.epoch with
  | .eq => cmpRelease a.release b.release
  | o => o

def versionLt (a b : PVersion) : Bool := cmpVersion a b == .lt

def versionLe (a b : PVersion) : Bool := cmpVersion a b != .gt

/-- The processor's `signature_breaking_versions` tuple
(tx_processor.py lines 154-157): 1.0.0 (gas field renamed) and 1.3.0
(chain id added to the signed payload). -/
def signatureBreakingVersions : List PVersion :=
  [{ release := [1, 0, 0] }, { release := [1, 3, 0] }]

/-- `SafeTxProcessor.is_version_breaking_signatures` (tx_processor.py lines
249-267): normalize both versions to their base version, order them, and
report whether some breaking boundary lies strictly above the smaller and at
or below the larger. -/
def is_version_breaking_signatures (oldSafeVersion newSafeVersion : PVersion) : Bool :=
  let oldV := baseVersion oldSafeVersion
  let newV := baseVersion newSafeVersion
  let p := if versionLt newV oldV then (newV, oldV) else (oldV, newV)
  signatureBreakingVersions.any fun breakingVersion =>
    versionLt p.1 breakingVersion && versionLe breakingVersion p.2

/-! ### Chain data -/

/-- One receipt log of an Ethereum transaction: topics (32-byte words),
data bytes and the (optional) emitting address, as consumed by `is_failed`
and `is_module_failed`. -/
structure LogEntry where
  topics : List (List Nat) := []
  data : List Nat := []
  address : Option Addr := none
deriving DecidableEq, Repr

/-- `EthereumTx` row: identified by its transaction hash, carrying the
receipt logs and the transaction index inside its block. -/
structure EthereumTx where
  id : Nat
  transactionIndex : Nat := 0
  logs : List LogEntry := []
deriving DecidableEq, Repr

/-- `InternalTx` row (one EVM trace step); only the fields the processor
reads are modelled.  `frm` is the source's `_from` column. -/
structure InternalTx where
  id : Nat
  frm : Addr
  toAddr : Addr := 0
  ethereumTx : EthereumTx
  traceAddress : List Nat := []
  blockNumber : Nat := 0
  gasUsed : Nat
  timestamp : Nat := 0
deriving DecidableEq, Repr

/-- Decoded arguments of an internal transaction (the source's JSON
`arguments` dict).  Keys whose presence the processor tests with `in` are
`Option`s (`module`, `owner`, `nonce`, `baseGas`, `fallbackHandler`); the
value of `_threshold` can itself be `None` for event-indexed calls, hence
`threshold0 : Option Nat`.  Keys the source reads unconditionally are plain
fields (a missing key would be an uncaught `KeyError`, outside this model).
Names with a leading underscore in the source are suffixed with `0`. -/
structure Args where
  owners0 : List Addr := []
  threshold0 : Option Nat := none
  owner : Option Addr := none
  oldOwner : Addr := 0
  newOwner : Addr := 0
  masterCopy0 : Addr := 0
  handler : Addr := 0
  guardArg : Addr := 0
  module : Option Addr := none
  toAddr : Addr := 0
  value : Nat := 0
  data : List Nat := []
  operation : Nat := 0
  hashToApprove : List Nat := []
  nonce : Option Nat := none
  baseGas : Option Nat := none
  dataGas : Nat := 0
  safeTxGas : Nat := 0
  gasPrice : Nat := 0
  gasToken : Addr := 0
  refundReceiver : Addr := 0
  signatures : List Nat := []
  fallbackHandler : Option Addr := none
deriving DecidableEq, Repr

/-- Python `arguments["_threshold"] or fallback`: `None` and `0` are falsy,
so both fall back. -/
def pyOrNat (v : Option Nat) (fallback : Nat) : Nat :=
  match v with
  | some t => if t == 0 then fallback else t
  | none => fallback

/-- `InternalTxDecoded` row: a decoded call attached to its internal
transaction (its `processed` flag lives in `DB.decodedProcessed`). -/
structure InternalTxDecoded where
  internalTx : InternalTx
  functionName : String
  arguments : Args
deriving DecidableEq, Repr

/-- Result of parsing one signature out of a signatures blob
(`SafeSignature.parse_signature` / `SafeSignatureApprovedHash`, external
`safe_eth` library): recovered owner, raw signature bytes, exported
signature bytes and the numeric signature type. -/
structure SigParsed where
  owner : Addr
  signature : List Nat := []
  exported : List Nat := []
  signatureType : Nat := 0
deriving DecidableEq, Repr

/-- A raw trace returned by the previous-trace lookup.  The processor feeds
it to `InternalTx.objects.build_from_trace` and only ever reads the
resulting `_from` field, which comes verbatim from the trace's
`action.from`; that single field is modelled. -/
structure TraceRec where
  frm : Addr
deriving DecidableEq, Repr

/-! ### Database rows -/

/-- `SafeContract` row: address (PK), origin transaction and ban flag. -/
structure SafeContractRec where
  address : Addr
  ethereumTxId : Option Nat := none
  banned : Bool := false
deriving DecidableEq, Repr

/-- Shared shape of `SafeStatus` (append-only history snapshot) and
`SafeLastStatus` (one mutable row per Safe): the Safe configuration produced
by one internal transaction.  `blockNumber` and `transactionIndex` are the
referenced internal transaction's, denormalized here because
`SafeStatusQuerySet.sorted_by_mined` orders by them. -/
structure SafeStatusRec where
  internalTxId : Nat
  address : Addr
  owners : List Addr
  threshold : Nat
  nonce : Nat
  masterCopy : Addr
  fallbackHandler : Addr := 0
  guardAddr : Option Addr := none
  enabledModules : List Addr := []
  blockNumber : Nat := 0
  transactionIndex : Nat := 0
deriving DecidableEq, Repr

/-- `MultisigTransaction` row, keyed by `safe_tx_hash`. -/
structure MultisigTxRec where
  safeTxHash : List Nat
  created : Nat := 0
  safe : Addr
  ethereumTxId : Option Nat := none
  toAddr : Addr := 0
  value : Nat := 0
  data : Option (List Nat) := none
  operation : Nat := 0
  safeTxGas : Nat := 0
  baseGas : Nat := 0
  gasPrice : Nat := 0
  gasToken : Addr := 0
  refundReceiver : Addr := 0
  nonce : Nat
  signatures : Option (List Nat) := none
  failed : Option Bool := none
  trusted : Bool := false
deriving DecidableEq, Repr

/-- `MultisigConfirmation` row, unique on `(multisig_transaction_hash,
owner)`.  `multisigTransactionId` is the nullable FK to
`MultisigTransaction` (by its `safe_tx_hash` PK). -/
structure ConfirmationRec where
  multisigTransactionHash : List Nat
  owner : Addr
  created : Nat := 0
  ethereumTxId : Option Nat := none
  multisigTransactionId : Option (List Nat) := none
  signature : List Nat := []
  signatureType : Nat := 0
deriving DecidableEq, Repr

/-- `ModuleTransaction` row, one-to-one with its internal transaction. -/
structure ModuleTxRec where
  internalTxId : Nat
  created : Nat := 0
  safe : Addr
  module : Addr
  toAddr : Addr := 0
  value : Nat := 0
  data : Option (List Nat) := none
  operation : Nat := 0
  failed : Bool := false
deriving DecidableEq, Repr

/-- `SafeRelevantTransaction` row: `(ethereum_tx, safe, timestamp)`,
unique on the first two components. -/
structure RelevantTxRec where
  ethereumTxId : Nat
  safe : Addr
  timestamp : Nat := 0
deriving DecidableEq, Repr

/-- The relational store, one list per table the processor touches.
`decodedProcessed` is the set of internal-tx ids whose `InternalTxDecoded`
row has `processed=True`; `masterCopyVersions` is the `SafeMasterCopy`
table reduced to its `address -> version` mapping; `delegates` holds
`SafeContractDelegate` rows as `(safe_contract, delegator)` pairs;
`messageConfirmations` holds `SafeMessageConfirmation` rows as
`(id, owner)` pairs. -/
structure DB where
  safeContracts : List SafeContractRec := []
  safeLastStatus : List SafeStatusRec := []
  safeStatuses : List SafeStatusRec := []
  multisigTxs : List MultisigTxRec := []
  confirmations : List ConfirmationRec := []
  moduleTxs : List ModuleTxRec := []
  relevantTxs : List RelevantTxRec := []
  decodedProcessed : List Nat := []
  masterCopyVersions : List (Addr × PVersion) := []
  delegates : List (Addr × Addr) := []
  messageConfirmations : List (Nat × Addr) := []
deriving DecidableEq, Repr

/-- Processor state: the database plus the in-process
`safe_last_status_cache` dict (an association list keyed by address). -/
structure ProcState where
  db : DB
  cache : List (Addr × SafeStatusRec) := []
deriving DecidableEq, Repr

/-- The canonical fields hashed by the external `SafeTx` helper to produce
`safe_tx_hash` (destination, value, payload, operation, gas fields, nonce,
version and chain id). -/
structure SafeTxCanonical where
  safe : Addr
  toAddr : Addr
  value : Nat
  data : List Nat
  operation : Nat
  safeTxGas : Nat
  baseGas : Nat
  gasPrice : Nat
  gasToken : Addr
  refundReceiver : Addr
  signatures : List Nat
  safeNonce : Nat
  safeVersion : PVersion
  chainId : Nat
deriving DecidableEq, Repr

/-- External collaborators of the processor (constructor arguments and
library calls of `SafeTxProcessor.__init__`): failure-event topics computed
from contract ABIs, the chain id, the `SafeTx` hashing function, signature
parsing, approved-hash signature building, the tracing client's
previous-trace lookup (`Except Unit` error = `Web3RPCError`) and the
account-abstraction detector (returns the number of user operations
found; its own side effects are out of scope). -/
structure Env where
  safeTxFailureTopics : List (List Nat)
  safeTxModuleFailureTopics : List (List Nat)
  chainId : Nat
  safeTxHash : SafeTxCanonical → List Nat
  parseSignatures : List Nat → List Nat → List SigParsed
  approvedHashSignature : Addr → List Nat → SigParsed
  getPreviousTrace : Nat → List Nat → Except Unit (Option TraceRec)
  processAaTransaction : Addr → Nat → Nat

/-- Processor exceptions (`TxProcessorException` subclasses of
tx_processor.py lines 52-69) plus the external `Web3RPCError`, which is not
a `TxProcessorException`.  `UserOperationFailed` is declared in the source
but only raised inside the external account-abstraction service, which is
out of scope here. -/
inductive PErr where
  | ownerCannotBeRemoved
  | moduleCannotBeDisabled
  | cannotFindPreviousTrace
  | web3RPCError
deriving DecidableEq, Repr

/-- Whether the error is a `TxProcessorException` (caught by the batch
loop's second handler). -/
def PErr.isTxProcessorException : PErr → Bool
  | .web3RPCError => false
  | _ => true

/-! ### Cache and table helpers -/

/-- Dictionary lookup in the wallet-state cache. -/
def alistGet (cache : List (Addr × SafeStatusRec)) (a : Addr) : Option SafeStatusRec :=
  (cache.find? (fun p => p.1 == a)).map (·.2)

/-- Dictionary key deletion (`clear_cache(safe_address=a)`). -/
def alistRemove (cache : List (Addr × SafeStatusRec)) (a : Addr) : List (Addr × SafeStatusRec) :=
  cache.filter (fun p => p.1 != a)

/-- Dictionary assignment `cache[a] = s`. -/
def alistPut (cache : List (Addr × SafeStatusRec)) (a : Addr) (s : SafeStatusRec) :
    List (Addr × SafeStatusRec) :=
  (a, s) :: alistRemove cache a

/-- The batch's `finally` block: `clear_cache(safe_address=a)` for every
touched address. -/
def clearCacheAddresses (cache : List (Addr × SafeStatusRec)) (addresses : List Addr) :
    List (Addr × SafeStatusRec) :=
  cache.filter (fun p => !(addresses.contains p.1))

/-- `SafeMasterCopy.objects.get_version_for_address` (models.py lines
1797-1802): version of a master copy address, if indexed. -/
def get_safe_version_from_master_copy (db : DB) (masterCopy : Addr) : Option PVersion :=
  (db.masterCopyVersions.find? (fun p => p.1 == masterCopy)).map (·.2)

/-- `SafeContract.objects.get_banned_addresses` (models.py lines 1834-1852):
the subset of the given addresses whose `SafeContract` row is banned. -/
def get_banned_addresses (db : DB) (addresses : List Addr) : List Addr :=
  (db.safeContracts.filter (fun sc => sc.banned && addresses.contains sc.address)).map
    (·.address)

/-- Strict "sorts above in `sorted_by_mined`" order on snapshots:
`(-nonce, -block_number, -transaction_index, -internal_tx_id)` descending
(models.py lines 2195-2209). -/
def statusAfter (a b : SafeStatusRec) : Bool :=
  if a.nonce != b.nonce then decide (b.nonce < a.nonce)
  else if a.blockNumber != b.blockNumber then decide (b.blockNumber < a.blockNumber)
  else if a.transactionIndex != b.transactionIndex then
    decide (b.transactionIndex < a.transactionIndex)
  else decide (b.internalTxId < a.internalTxId)

/-- `SafeStatus.objects.last_for_address` (models.py lines 2227-2228): the
maximal snapshot of the address in `sorted_by_mined` order. -/
def last_for_address (db : DB) (address : Addr) : Option SafeStatusRec :=
  (db.safeStatuses.filter (fun s => s.address == address)).foldl
    (fun acc s =>
      match acc with
      | none => some s
      | some t => if statusAfter s t then some s else some t)
    none

/-- Django `save()` / `update_or_create` on `SafeLastStatus`: replace the
row with the same address, or insert it. -/
def upsertLastStatus (rows : List SafeStatusRec) (s : SafeStatusRec) : List SafeStatusRec :=
  if rows.any (fun r => r.address == s.address) then
    rows.map (fun r => if r.address == s.address then s else r)
  else rows ++ [s]

/-- `SafeContractDelegate.objects.remove_delegates_for_owner_in_safe`
(models.py lines 1919-1930): delete `(safe, delegator)` rows matching both. -/
def remove_delegates_for_owner_in_safe (db : DB) (safeAddress owner : Addr) : DB :=
  { db with delegates := db.delegates.filter (fun p => !(p.1 == safeAddress && p.2 == owner)) }

/-- `MultisigConfirmation.objects.remove_unused_confirmations` (models.py
lines 1668-1681): delete the owner's confirmations of not-executed
transactions of this Safe with nonce at least the current one (rows whose
`multisig_transaction` FK is null never match the join). -/
def remove_unused_confirmations (db : DB) (safe : Addr) (currentSafeNonce : Nat)
    (owner : Addr) : DB :=
  { db with
    confirmations := db.confirmations.filter fun c =>
      !(c.owner == owner &&
        (match c.multisigTransactionId with
         | some h =>
           (db.multisigTxs.find? (fun t => t.safeTxHash == h)).elim false fun t =>
             t.ethereumTxId.isNone && t.safe == safe && currentSafeNonce ≤ t.nonce
         | none => false)) }

/-- `SafeMessageConfirmation.objects.filter(owner=owner).delete()`
(tx_processor.py line 317). -/
def deleteMessageConfirmations (db : DB) (owner : Addr) : DB :=
  { db with messageConfirmations := db.messageConfirmations.filter (fun p => !(p.2 == owner)) }

/-- The subquery of `MultisigTransactionQuerySet.queued` (models.py lines
1474-1494): greatest nonce among the Safe's executed transactions,
defaulting to `-1` when none is executed. -/
def maxExecutedNonce (db : DB) (safe : Addr) : Int :=
  ((db.multisigTxs.filter (fun t => t.safe == safe && t.ethereumTxId.isSome)).map
      (fun t => (t.nonce : Int))).foldl max (-1)

/-- `MultisigTransactionQuerySet.queued` membership: not executed, for this
Safe, nonce greater than the last executed nonce. -/
def isQueued (db : DB) (safe : Addr) (t : MultisigTxRec) : Bool :=
  t.ethereumTxId.isNone && t.safe == safe && decide (maxExecutedNonce db safe < (t.nonce : Int))

/-- `MultisigTransaction.objects.queued(safe).delete()` (tx_processor.py
line 564), including the database-level cascade deleting the confirmations
whose `multisig_transaction` FK pointed at a deleted transaction. -/
def deleteQueuedTransactions (db : DB) (safe : Addr) : DB :=
  let removedHashes := (db.multisigTxs.filter (fun t => isQueued db safe t)).map (·.safeTxHash)
  { db with
    multisigTxs := db.multisigTxs.filter (fun t => !(isQueued db safe t)),
    confirmations := db.confirmations.filter fun c =>
      !((c.multisigTransactionId.map (fun h => removedHashes.contains h)).getD false) }

/-- `ModuleTransaction.objects.get_or_create(internal_tx=...)`: keyed by the
internal transaction. -/
def moduleTxGetOrCreate (db : DB) (rec : ModuleTxRec) : DB :=
  if db.moduleTxs.any (fun m => m.internalTxId == rec.internalTxId) then db
  else { db with moduleTxs := db.moduleTxs ++ [rec] }

/-- `SafeRelevantTransaction.objects.get_or_create(ethereum_tx=..., safe=...)`. -/
def relevantTxGetOrCreate (db : DB) (ethereumTxId : Nat) (safe : Addr) (timestamp : Nat) : DB :=
  if db.relevantTxs.any (fun r => r.ethereumTxId == ethereumTxId && r.safe == safe) then db
  else
    { db with
      relevantTxs := db.relevantTxs ++
        [{ ethereumTxId := ethereumTxId, safe := safe, timestamp := timestamp }] }

/-- `MultisigTransaction.objects.get_or_create(safe_tx_hash=...)`: returns
the found or created row together with the updated table. -/
def multisigTxGetOrCreate (db : DB) (hash : List Nat) (defaults : MultisigTxRec) :
    MultisigTxRec × DB :=
  match db.multisigTxs.find? (fun t => t.safeTxHash == hash) with
  | some t => (t, db)
  | none => (defaults, { db with multisigTxs := db.multisigTxs ++ [defaults] })

/-- The first-execution-sighting backfill on a `MultisigTransaction`
(tx_processor.py lines 774-781). -/
def backfillMultisigTx (db : DB) (hash : List Nat) (ethereumTxId : Nat) (failed : Bool)
    (sigs : List Nat) : DB :=
  { db with
    multisigTxs := db.multisigTxs.map fun t =>
      if t.safeTxHash == hash then
        { t with ethereumTxId := some ethereumTxId, failed := some failed,
                 signatures := some sigs, trusted := true }
      else t }

/-- `MultisigConfirmation.objects.get_or_create` keyed by
`(multisig_transaction_hash, owner)`. -/
def confirmationGetOrCreate (db : DB) (hash : List Nat) (owner : Addr)
    (defaults : ConfirmationRec) : ConfirmationRec × DB :=
  match db.confirmations.find? (fun c => c.multisigTransactionHash == hash && c.owner == owner) with
  | some c => (c, db)
  | none => (defaults, { db with confirmations := db.confirmations ++ [defaults] })

/-- In-place `save(update_fields=...)` on the confirmation with the given
key. -/
def updateConfirmation (db : DB) (hash : List Nat) (owner : Addr)
    (f : ConfirmationRec → ConfirmationRec) : DB :=
  { db with
    confirmations := db.confirmations.map fun c =>
      if c.multisigTransactionHash == hash && c.owner == owner then f c else c }

/-- Address as its 20-byte big-endian encoding (`HexBytes(module_address)`). -/
def addressAsBytes20 (a : Addr) : List Nat :=
  (List.range 20).map fun i => a / 256 ^ (19 - i) % 256

/-! ### Processor methods -/

/-- `SafeTxProcessor.is_failed` (tx_processor.py lines 172-201): a log with
nonempty topics and data whose first topic is a failure-event topic, and
which carries the safe-tx hash either as its single indexed topic (v1.4.1)
or as the first 32 data bytes (v1.3.0). -/
def is_failed (env : Env) (ethereumTx : EthereumTx) (safeTxHash : List Nat) : Bool :=
  ethereumTx.logs.any fun log =>
    !log.topics.isEmpty && !log.data.isEmpty &&
      env.safeTxFailureTopics.contains (log.topics.headD []) &&
      ((log.topics.length == 2 && (log.topics.getD 1 []) == safeTxHash) ||
        log.data.take 32 == safeTxHash)

/-- `SafeTxProcessor.is_module_failed` (tx_processor.py lines 203-227): a
two-topic module-failure log emitted by the Safe whose second topic ends in
the module address. -/
def is_module_failed (env : Env) (ethereumTx : EthereumTx) (moduleAddress : Addr)
    (safeAddress : Addr) : Bool :=
  ethereumTx.logs.any fun log =>
    log.topics.length == 2 &&
      (log.address.elim true (fun a => a == safeAddress)) &&
      env.safeTxModuleFailureTopics.contains (log.topics.headD []) &&
      (let t1 := log.topics.getD 1 []
       t1.drop (t1.length - 20) == addressAsBytes20 moduleAddress)

/-- `SafeTxProcessor.get_last_safe_status_for_address` (tx_processor.py
lines 238-247) together with `SafeLastStatus.objects.get_or_generate`
(models.py lines 2102-2115): cache hit, else the `SafeLastStatus` row, else
rebuild from the latest `SafeStatus` snapshot (persisting the rebuilt row),
else none.  The boolean marks a cache hit, because a field written on the
cached object before a save is visible through the cache. -/
def get_last_safe_status_for_address (st : ProcState) (address : Addr) :
    Option (SafeStatusRec × Bool) × ProcState :=
  match alistGet st.cache address with
  | some s => (some (s, true), st)
  | none =>
    match st.db.safeLastStatus.find? (fun r => r.address == address) with
    | some r => (some (r, false), st)
    | none =>
      match last_for_address st.db address with
      | some s =>
        (some (s, false),
         { st with db := { st.db with safeLastStatus := upsertLastStatus st.db.safeLastStatus s } })
      | none => (none, st)

/-- `SafeTxProcessor.store_new_safe_status` (tx_processor.py lines 351-364):
attach the internal transaction, save the `SafeLastStatus` row (which also
appends a `SafeStatus` history snapshot via a Django signal, per the
method's docstring) and memoize it in the cache under its address. -/
def store_new_safe_status (st : ProcState) (safeLastStatus : SafeStatusRec)
    (internalTx : InternalTx) : ProcState :=
  let s := { safeLastStatus with
    internalTxId := internalTx.id,
    blockNumber := internalTx.blockNumber,
    transactionIndex := internalTx.ethereumTx.transactionIndex }
  { db := { st.db with
      safeLastStatus := upsertLastStatus st.db.safeLastStatus s,
      safeStatuses := st.db.safeStatuses ++ [s] },
    cache := alistPut st.cache s.address s }

/-- `SafeTxProcessor.swap_owner` (tx_processor.py lines 269-317): raise
`OwnerCannotBeRemoved` when the owner is absent; otherwise remove it (first
occurrence, Python `list.remove`) or replace every matching position with
the new owner, dropping the owner's delegate grants when the list changed,
then delete the owner's unused confirmations and message confirmations. -/
def swap_owner (db : DB) (internalTx : InternalTx) (safeStatus : SafeStatusRec)
    (owner : Addr) (newOwner : Option Addr) : Except PErr (SafeStatusRec × DB) :=
  let contractAddress := internalTx.frm
  if !(safeStatus.owners.contains owner) then
    .error .ownerCannotBeRemoved
  else
    let p : SafeStatusRec × DB :=
      match newOwner with
      | none =>
        ({ safeStatus with owners := safeStatus.owners.erase owner },
         remove_delegates_for_owner_in_safe db safeStatus.address owner)
      | some newOwnerAddr =>
        let oldOwners := safeStatus.owners
        let newOwners := safeStatus.owners.map fun currentOwner =>
          if currentOwner == owner then newOwnerAddr else currentOwner
        ({ safeStatus with owners := newOwners },
         if oldOwners != newOwners then
           remove_delegates_for_owner_in_safe db safeStatus.address owner
         else db)
    let db2 := remove_unused_confirmations p.2 contractAddress p.1.nonce owner
    .ok (p.1, deleteMessageConfirmations db2 owner)

/-- `SafeTxProcessor.disable_module` (tx_processor.py lines 319-349): raise
`ModuleCannotBeDisabled` when absent, else remove the module (first
occurrence). -/
def disable_module (safeStatus : SafeStatusRec) (module : Addr) :
    Except PErr SafeStatusRec :=
  if !(safeStatus.enabledModules.contains module) then .error .moduleCannotBeDisabled
  else .ok { safeStatus with enabledModules := safeStatus.enabledModules.erase module }

/-! ### The dispatch branches of `__process_decoded_transaction` -/

/-- The `setup` branch (tx_processor.py lines 476-508): get-or-create the
`SafeContract` row (backfilling its origin transaction when unset) and store
the initial status with nonce 0, master copy = the call's target. -/
def processSetup (st : ProcState) (d : InternalTxDecoded) : Except PErr Bool × ProcState :=
  let internalTx := d.internalTx
  let contractAddress := internalTx.frm
  let arguments := d.arguments
  let db1 :=
    match st.db.safeContracts.find? (fun sc => sc.address == contractAddress) with
    | some sc =>
      if sc.ethereumTxId.isNone then
        { st.db with
          safeContracts := st.db.safeContracts.map fun r =>
            if r.address == contractAddress then
              { r with ethereumTxId := some internalTx.ethereumTx.id }
            else r }
      else st.db
    | none =>
      { st.db with
        safeContracts := st.db.safeContracts ++
          [{ address := contractAddress, ethereumTxId := some internalTx.ethereumTx.id }] }
  (.ok true,
   store_new_safe_status { st with db := db1 }
     { internalTxId := internalTx.id, address := contractAddress,
       owners := arguments.owners0, threshold := arguments.threshold0.getD 0, nonce := 0,
       masterCopy := internalTx.toAddr,
       fallbackHandler := arguments.fallbackHandler.getD NULL_ADDRESS }
     internalTx)

/-- The `addOwnerWithThreshold` / `removeOwner` / `removeOwnerWithThreshold`
branch (tx_processor.py lines 519-535).  The `_threshold` write happens on
the status object before `swap_owner` can raise; when the object came from
the cache that write is visible through the cache even on the error path
(CPython mutates the cached object in place). -/
def processOwnerChange (st : ProcState) (d : InternalTxDecoded) (sls : SafeStatusRec)
    (fromCache : Bool) : Except PErr Bool × ProcState :=
  let internalTx := d.internalTx
  let arguments := d.arguments
  let sls1 := { sls with threshold := pyOrNat arguments.threshold0 sls.threshold }
  let st1 := if fromCache then { st with cache := alistPut st.cache internalTx.frm sls1 } else st
  let owner := arguments.owner.getD 0
  if d.functionName == "addOwnerWithThreshold" then
    (.ok true, store_new_safe_status st1 { sls1 with owners := owner :: sls1.owners } internalTx)
  else
    match swap_owner st1.db internalTx sls1 owner none with
    | .error e => (.error e, st1)
    | .ok p => (.ok true, store_new_safe_status { st1 with db := p.2 } p.1 internalTx)

/-- The `swapOwner` branch (tx_processor.py lines 536-541). -/
def processSwapOwner (st : ProcState) (d : InternalTxDecoded) (sls : SafeStatusRec) :
    Except PErr Bool × ProcState :=
  let arguments := d.arguments
  match swap_owner st.db d.internalTx sls arguments.oldOwner (some arguments.newOwner) with
  | .error e => (.error e, st)
  | .ok p => (.ok true, store_new_safe_status { st with db := p.2 } p.1 d.internalTx)

/-- The `changeMasterCopy` branch (tx_processor.py lines 546-565): look up
both versions, and when both are known and the transition breaks signatures
delete the Safe's queued transactions before storing the new status. -/
def processChangeMasterCopy (st : ProcState) (d : InternalTxDecoded) (sls : SafeStatusRec) :
    Except PErr Bool × ProcState :=
  let contractAddress := d.internalTx.frm
  let oldSafeVersion := get_safe_version_from_master_copy st.db sls.masterCopy
  let sls1 := { sls with masterCopy := d.arguments.masterCopy0 }
  let newSafeVersion := get_safe_version_from_master_copy st.db sls1.masterCopy
  let db1 :=
    match oldSafeVersion, newSafeVersion with
    | some ov, some nv =>
      if is_version_breaking_signatures ov nv then deleteQueuedTransactions st.db contractAddress
      else st.db
    | _, _ => st.db
  (.ok true, store_new_safe_status { st with db := db1 } sls1 d.internalTx)

/-- The `execTransactionFromModule(ReturnData)` branch (tx_processor.py
lines 587-657): resolve the module from the explicit argument or from the
previous trace (an RPC error is treated as no trace; no trace is the
`CannotFindPreviousTrace` hard failure), then idempotently record the
`ModuleTransaction` and the relevant-transaction marker and run the
account-abstraction detector. -/
def processModuleExecution (env : Env) (st : ProcState) (d : InternalTxDecoded) :
    Except PErr Bool × ProcState :=
  let internalTx := d.internalTx
  let ethereumTx := internalTx.ethereumTx
  let contractAddress := internalTx.frm
  let arguments := d.arguments
  let moduleAddressR : Except PErr Addr :=
    match arguments.module with
    | some m => .ok m
    | none =>
      let previousTrace :=
        match env.getPreviousTrace ethereumTx.id internalTx.traceAddress with
        | .error _ => none
        | .ok t => t
      match previousTrace with
      | none => .error .cannotFindPreviousTrace
      | some tr => .ok tr.frm
  match moduleAddressR with
  | .error e => (.error e, st)
  | .ok moduleAddress =>
    let failed := is_module_failed env ethereumTx moduleAddress contractAddress
    let moduleData := arguments.data
    let db1 := moduleTxGetOrCreate st.db
      { internalTxId := internalTx.id, created := internalTx.timestamp,
        safe := contractAddress, module := moduleAddress, toAddr := arguments.toAddr,
        value := arguments.value,
        data := if moduleData.isEmpty then none else some moduleData,
        operation := arguments.operation, failed := failed }
    let db2 := relevantTxGetOrCreate db1 ethereumTx.id contractAddress internalTx.timestamp
    let numberDetectedUserOperations := env.processAaTransaction contractAddress ethereumTx.id
    let _ := numberDetectedUserOperations
    (.ok true, { st with db := db2 })

/-- The `approveHash` branch (tx_processor.py lines 659-698): resolve the
approving owner from the explicit argument or from the previous trace, then
idempotently create the `(hash, owner)` confirmation and backfill its
executing transaction.  Unlike the module branch, the trace lookup here is
not wrapped in a `try/except Web3RPCError`, so an RPC error propagates
uncaught. -/
def processApproveHash (env : Env) (st : ProcState) (d : InternalTxDecoded) :
    Except PErr Bool × ProcState :=
  let internalTx := d.internalTx
  let ethereumTx := internalTx.ethereumTx
  let arguments := d.arguments
  let multisigTransactionHash := arguments.hashToApprove
  let ownerR : Except PErr Addr :=
    match arguments.owner with
    | some o => .ok o
    | none =>
      match env.getPreviousTrace ethereumTx.id internalTx.traceAddress with
      | .error _ => .error .web3RPCError
      | .ok none => .error .cannotFindPreviousTrace
      | .ok (some tr) => .ok tr.frm
  match ownerR with
  | .error e => (.error e, st)
  | .ok owner =>
    let safeSignature := env.approvedHashSignature owner multisigTransactionHash
    let pr := confirmationGetOrCreate st.db multisigTransactionHash owner
      { multisigTransactionHash := multisigTransactionHash, owner := owner,
        created := internalTx.timestamp, ethereumTxId := some ethereumTx.id,
        multisigTransactionId := none,
        signature := safeSignature.exported, signatureType := safeSignature.signatureType }
    let db2 :=
      if pr.1.ethereumTxId.isNone then
        updateConfirmation pr.2 multisigTransactionHash owner
          (fun c => { c with ethereumTxId := some ethereumTx.id })
      else pr.2
    (.ok true, { st with db := db2 })

/-- One step of the signature loop of the `execTransaction` branch
(tx_processor.py lines 783-809): get-or-create the confirmation for a
recovered signer and amend its stored signature when it differs. -/
def execSignatureStep (safeTxHash : List Nat) (created : Nat) (db : DB) (sig : SigParsed) : DB :=
  let pr := confirmationGetOrCreate db safeTxHash sig.owner
    { multisigTransactionHash := safeTxHash, owner := sig.owner, created := created,
      ethereumTxId := none, multisigTransactionId := some safeTxHash,
      signature := sig.exported, signatureType := sig.signatureType }
  if pr.1.signature != sig.signature then
    updateConfirmation pr.2 safeTxHash sig.owner
      (fun c => { c with signature := sig.exported, signatureType := sig.signatureType })
  else pr.2

/-- The `execTransaction` branch (tx_processor.py lines 699-812): resolve
the nonce (explicit argument, else current status nonce), the gas field and
version (`baseGas` vs legacy `dataGas`), hash the canonical fields, detect
failure from the logs, idempotently create the `MultisigTransaction` and
relevant-transaction marker, backfill on first execution sighting, process
the parsed signatures and finally advance the nonce to `nonce + 1`. -/
def processExecTransaction (env : Env) (st : ProcState) (d : InternalTxDecoded)
    (sls : SafeStatusRec) : Except PErr Bool × ProcState :=
  let internalTx := d.internalTx
  let ethereumTx := internalTx.ethereumTx
  let contractAddress := internalTx.frm
  let arguments := d.arguments
  let nonce := arguments.nonce.getD sls.nonce
  let bg : Nat × PVersion :=
    match arguments.baseGas with
    | some g =>
      (g, (get_safe_version_from_master_copy st.db sls.masterCopy).getD { release := [1, 3, 0] })
    | none => (arguments.dataGas, { release := [0, 0, 1] })
  let safeTx : SafeTxCanonical :=
    { safe := contractAddress, toAddr := arguments.toAddr, value := arguments.value,
      data := arguments.data, operation := arguments.operation,
      safeTxGas := arguments.safeTxGas, baseGas := bg.1, gasPrice := arguments.gasPrice,
      gasToken := arguments.gasToken, refundReceiver := arguments.refundReceiver,
      signatures := arguments.signatures, safeNonce := nonce, safeVersion := bg.2,
      chainId := env.chainId }
  let safeTxHash := env.safeTxHash safeTx
  let failed := is_failed env ethereumTx safeTxHash
  let pr := multisigTxGetOrCreate st.db safeTxHash
    { safeTxHash := safeTxHash, created := internalTx.timestamp, safe := contractAddress,
      ethereumTxId := some ethereumTx.id, toAddr := safeTx.toAddr, value := safeTx.value,
      data := if safeTx.data.isEmpty then none else some safeTx.data,
      operation := safeTx.operation, safeTxGas := safeTx.safeTxGas, baseGas := safeTx.baseGas,
      gasPrice := safeTx.gasPrice, gasToken := safeTx.gasToken,
      refundReceiver := safeTx.refundReceiver, nonce := safeTx.safeNonce,
      signatures := some safeTx.signatures, failed := some failed, trusted := true }
  let db2 := relevantTxGetOrCreate pr.2 ethereumTx.id contractAddress internalTx.timestamp
  let db3 :=
    if pr.1.ethereumTxId.isNone then
      backfillMultisigTx db2 safeTxHash ethereumTx.id failed arguments.signatures
    else db2
  let db4 := (env.parseSignatures safeTx.signatures safeTxHash).foldl
    (execSignatureStep safeTxHash internalTx.timestamp) db3
  (.ok true, store_new_safe_status { st with db := db4 } { sls with nonce := nonce + 1 } internalTx)

/-- The `elif` dispatch chain over `function_name` once a last status was
found (tx_processor.py lines 519-825).  The second test for the exact name
`execTransactionFromModule` (source lines 813-817) is kept in source order:
it is shadowed by the two-name module-execution test above it. -/
def processWithStatus (env : Env) (st : ProcState) (d : InternalTxDecoded)
    (sls : SafeStatusRec) (fromCache : Bool) : Except PErr Bool × ProcState :=
  if d.functionName == "addOwnerWithThreshold" || d.functionName == "removeOwner" ||
      d.functionName == "removeOwnerWithThreshold" then
    processOwnerChange st d sls fromCache
  else if d.functionName == "swapOwner" then
    processSwapOwner st d sls
  else if d.functionName == "changeThreshold" then
    (.ok true,
     store_new_safe_status st { sls with threshold := d.arguments.threshold0.getD 0 }
       d.internalTx)
  else if d.functionName == "changeMasterCopy" then
    processChangeMasterCopy st d sls
  else if d.functionName == "setFallbackHandler" then
    (.ok true,
     store_new_safe_status st { sls with fallbackHandler := d.arguments.handler } d.internalTx)
  else if d.functionName == "setGuard" then
    (.ok true,
     store_new_safe_status st
       { sls with
         guardAddr := if d.arguments.guardArg == NULL_ADDRESS then none
                      else some d.arguments.guardArg }
       d.internalTx)
  else if d.functionName == "enableModule" then
    (.ok true,
     store_new_safe_status st
       { sls with enabledModules := sls.enabledModules ++ [d.arguments.module.getD 0] }
       d.internalTx)
  else if d.functionName == "disableModule" then
    match disable_module sls (d.arguments.module.getD 0) with
    | .error e => (.error e, st)
    | .ok sls1 => (.ok true, store_new_safe_status st sls1 d.internalTx)
  else if d.functionName == "execTransactionFromModule" ||
      d.functionName == "execTransactionFromModuleReturnData" then
    processModuleExecution env st d
  else if d.functionName == "approveHash" then
    processApproveHash env st d
  else if d.functionName == "execTransaction" then
    processExecTransaction env st d sls
  else if d.functionName == "execTransactionFromModule" then
    (.ok true, st)
  else
    (.ok false, st)

/-- `SafeTxProcessor.__process_decoded_transaction` (tx_processor.py lines
440-827): the gas-threshold guard, the `setup` special case, the
status-lookup failure case and the dispatch chain. -/
def processDecodedTx (env : Env) (st : ProcState) (d : InternalTxDecoded) :
    Except PErr Bool × ProcState :=
  let internalTx := d.internalTx
  let contractAddress := internalTx.frm
  if internalTx.gasUsed < 1000 then
    (.ok false, st)
  else if d.functionName == "setup" && contractAddress != NULL_ADDRESS then
    processSetup st d
  else
    match get_last_safe_status_for_address st contractAddress with
    | (none, st1) => (.ok false, st1)
    | (some q, st1) => processWithStatus env st1 d q.1 q.2

/-- `InternalTxDecoded.set_processed` (models.py lines 1279-1281). -/
def set_processed (db : DB) (internalTxId : Nat) : DB :=
  { db with
    decodedProcessed :=
      if db.decodedProcessed.contains internalTxId then db.decodedProcessed
      else db.decodedProcessed ++ [internalTxId] }

/-- `SafeTxProcessor.process_decoded_transaction` (tx_processor.py lines
366-379): clear the wallet's cache entry, process inside one atomic unit
(rolling the database back when the processing raises), mark processed on
success, and clear the cache entry again in the `finally` block. -/
def process_decoded_transaction (env : Env) (st : ProcState) (d : InternalTxDecoded) :
    Except PErr Bool × ProcState :=
  let contractAddress := d.internalTx.frm
  let st1 := { st with cache := alistRemove st.cache contractAddress }
  match processDecodedTx env st1 d with
  | (.ok b, st2) =>
    let st3 := { st2 with db := set_processed st2.db d.internalTx.id }
    (.ok b, { st3 with cache := alistRemove st3.cache contractAddress })
  | (.error e, st2) =>
    (.error e, { db := st.db, cache := alistRemove st2.cache contractAddress })

/-- The per-call loop of `process_decoded_transactions` (tx_processor.py
lines 405-429): skip banned wallets (recording `False`), re-raise
`CannotFindPreviousTrace` immediately, absorb any other
`TxProcessorException` as a `False` result, and let anything else (such as
`Web3RPCError`) propagate; partial mutations of already-processed calls are
kept. -/
def processBatchGo (env : Env) (bannedAddresses : List Addr) :
    ProcState → List InternalTxDecoded → Except PErr (List Bool) × ProcState
  | st, [] => (.ok [], st)
  | st, d :: rest =>
    if bannedAddresses.contains d.internalTx.frm then
      let pr := processBatchGo env bannedAddresses st rest
      (pr.1.map (fun rs => false :: rs), pr.2)
    else
      match processDecodedTx env st d with
      | (.ok b, st1) =>
        let pr := processBatchGo env bannedAddresses st1 rest
        (pr.1.map (fun rs => b :: rs), pr.2)
      | (.error e, st1) =>
        if e == .cannotFindPreviousTrace then (.error e, st1)
        else if e.isTxProcessorException then
          let pr := processBatchGo env bannedAddresses st1 rest
          (pr.1.map (fun rs => false :: rs), pr.2)
        else (.error e, st1)

/-- `SafeTxProcessor.process_decoded_transactions` (tx_processor.py lines
381-438): compute the touched and banned addresses, run the per-call loop,
then mark every input processed in one bulk update; the whole batch is one
atomic unit, so a propagating error rolls the database back, and the
`finally` block clears the cache entry of every touched address in both
outcomes. -/
def process_decoded_transactions (env : Env) (st : ProcState)
    (internalTxsDecoded : List InternalTxDecoded) : Except PErr (List Bool) × ProcState :=
  if internalTxsDecoded.isEmpty then (.ok [], st)
  else
    let contractAddresses := internalTxsDecoded.map (fun d => d.internalTx.frm)
    let banned := get_banned_addresses st.db contractAddresses
    let internalTxIds := internalTxsDecoded.map (fun d => d.internalTx.id)
    match processBatchGo env banned st internalTxsDecoded with
    | (.ok results, st1) =>
      (.ok results,
       { db := { st1.db with decodedProcessed := st1.db.decodedProcessed ∪ internalTxIds },
         cache := clearCacheAddresses st1.cache contractAddresses })
    | (.error e, st1) =>
      (.error e, { db := st.db, cache := clearCacheAddresses st1.cache contractAddresses })

/-! ### Concrete fixtures for witnesses and counterexamples -/

/-- A concrete environment: deterministic stand-ins for the external
collaborators. -/
def wEnv : Env :=
  { safeTxFailureTopics := []
    safeTxModuleFailureTopics := []
    chainId := 1
    safeTxHash := fun c => [c.safe, c.safeNonce, c.value]
    parseSignatures := fun _ _ => []
    approvedHashSignature := fun o h => { owner := o, exported := h ++ [o], signatureType := 1 }
    getPreviousTrace := fun _ _ => .ok (some { frm := 77 })
    processAaTransaction := fun _ _ => 0 }

/-- Environment whose previous-trace lookup finds nothing. -/
def wEnvNoTrace : Env := { wEnv with getPreviousTrace := fun _ _ => .ok none }

/-- Environment whose previous-trace lookup raises a `Web3RPCError`. -/
def wEnvRpcError : Env := { wEnv with getPreviousTrace := fun _ _ => .error () }

/-- A concrete internal transaction for Safe address 10 with plenty of gas. -/
def wInternalTx (id : Nat) : InternalTx :=
  { id := id, frm := 10, toAddr := 900, ethereumTx := { id := 5000 + id }, gasUsed := 60000 }

/-- A concrete decoded call on Safe address 10. -/
def wDecoded (id : Nat) (fn : String) (args : Args) : InternalTxDecoded :=
  { internalTx := wInternalTx id, functionName := fn, arguments := args }

/-- A concrete last status for Safe address 10. -/
def wStatus : SafeStatusRec :=
  { internalTxId := 1, address := 10, owners := [100, 101], threshold := 1, nonce := 4,
    masterCopy := 900 }

/-- A concrete state holding only the last status of Safe address 10. -/
def wState : ProcState := { db := { safeLastStatus := [wStatus] } }

/-! ### Lemmas about version comparison -/

theorem cmpNat_swap (a b : Nat) : cmpNat b a = (cmpNat a b).swap := by
  unfold cmpNat
  rcases Nat.lt_trichotomy a b with h | h | h
  · simp [h, Nat.lt_asymm h, Ordering.swap]
  · simp [h, Nat.lt_irrefl, Ordering.swap]
  · simp [h, Nat.lt_asymm h, Ordering.swap]

theorem cmpNat_eq_iff (a b : Nat) : cmpNat a b = .eq ↔ a = b := by
  unfold cmpNat
  rcases Nat.lt_trichotomy a b with h | h | h
  · simp [h]; omega
  · simp [h, Nat.lt_irrefl]
  · simp [h, Nat.lt_asymm h]; omega

theorem cmpRelease_swap (a b : List Nat) : cmpRelease b a = (cmpRelease a b).swap := by
  induction a generalizing b with
  | nil =>
    cases b with
    | nil => rfl
    | cons y ys =>
      show cmpRelease (y :: ys) [] = (cmpRelease [] (y :: ys)).swap
      unfold cmpRelease
      split <;> rfl
  | cons x xs ih =>
    cases b with
    | nil =>
      show cmpRelease [] (x :: xs) = (cmpRelease (x :: xs) []).swap
      unfold cmpRelease
      split <;> rfl
    | cons y ys =>
      have hs := cmpNat_swap x y
      cases hxy : cmpNat x y <;>
        simp [cmpRelease, hs, hxy, Ordering.swap, ih ys]

theorem cmpRelease_nil_cons_zero (cs : List Nat) :
    cmpRelease [] (0 :: cs) = cmpRelease [] cs := by
  cases cs with
  | nil => rfl
  | cons z zs =>
    show (if (0 :: z :: zs).all (· == 0) then Ordering.eq else .lt) = _
    simp [List.all_cons, cmpRelease]

theorem cmpRelease_allzero_left (a : List Nat) (h : a.all (· == 0) = true) (c : List Nat) :
    cmpRelease a c = cmpRelease [] c := by
  induction a generalizing c with
  | nil => rfl
  | cons x xs ih =>
    rw [List.all_cons, Bool.and_eq_true, beq_iff_eq] at h
    obtain ⟨hx, hxs⟩ := h
    subst hx
    cases c with
    | nil =>
      show (if (0 :: xs).all (· == 0) then Ordering.eq else .gt) = .eq
      simp [List.all_cons, hxs]
    | cons y cs =>
      show (match cmpNat 0 y with
            | .eq => cmpRelease xs cs
            | o => o) = cmpRelease [] (y :: cs)
      rcases Nat.eq_zero_or_pos y with hy | hy
      · subst hy
        rw [cmpRelease_nil_cons_zero]
        simpa [cmpNat] using ih hxs cs
      · have h1 : cmpNat 0 y = .lt := by simp [cmpNat, hy]
        have h2 : ((y :: cs).all (· == 0)) = false := by
          simp [List.all_cons]
          exact fun h => absurd h (by omega)
        simp [h1, cmpRelease, h2]

theorem cmpRelease_eq_allzero (a b : List Nat) (h : cmpRelease a b = .eq) :
    (a.all (· == 0)) = (b.all (· == 0)) := by
  induction a generalizing b with
  | nil =>
    cases b with
    | nil => rfl
    | cons y ys =>
      have : ((y :: ys).all (· == 0)) = true := by
        by_contra hfalse
        rw [Bool.not_eq_true] at hfalse
        rw [show cmpRelease [] (y :: ys) =
              (if (y :: ys).all (· == 0) then Ordering.eq else .lt) from rfl, hfalse] at h
        simp at h
      simp [this]
  | cons x xs ih =>
    cases b with
    | nil =>
      have : ((x :: xs).all (· == 0)) = true := by
        by_contra hfalse
        rw [Bool.not_eq_true] at hfalse
        rw [show cmpRelease (x :: xs) [] =
              (if (x :: xs).all (· == 0) then Ordering.eq else .gt) from rfl, hfalse] at h
        simp at h
      simp [this]
    | cons y ys =>
      have hstep : (match cmpNat x y with
            | .eq => cmpRelease xs ys
            | o => o) = .eq := h
      cases hxy : cmpNat x y <;> rw [hxy] at hstep <;> try simp at hstep
      have hx : x = y := (cmpNat_eq_iff x y).1 hxy
      subst hx
      simp [List.all_cons, ih _ hstep]

theorem cmpRelease_congr (a b : List Nat) (h : cmpRelease a b = .eq) (c : List Nat) :
    cmpRelease a c = cmpRelease b c := by
  induction a generalizing b c with
  | nil =>
    have hb : b.all (· == 0) = true := by
      have := cmpRelease_eq_allzero [] b h
      simpa using this.symm
    rw [cmpRelease_allzero_left b hb c]
  | cons x xs ih =>
    cases b with
    | nil =>
      have ha : (x :: xs).all (· == 0) = true := by
        have := cmpRelease_eq_allzero (x :: xs) [] h
        simpa using this
      rw [cmpRelease_allzero_left (x :: xs) ha c]
    | cons y ys =>
      have hstep : (match cmpNat x y with
            | .eq => cmpRelease xs ys
            | o => o) = .eq := h
      cases hxy : cmpNat x y <;> rw [hxy] at hstep <;> try simp at hstep
      have hx : x = y := (cmpNat_eq_iff x y).1 hxy
      subst hx
      cases c with
      | nil =>
        have hz := cmpRelease_eq_allzero (x :: xs) (x :: ys) h
        show (if (x :: xs).all (· == 0) then Ordering.eq else .gt) =
          (if (x :: ys).all (· == 0) then Ordering.eq else .gt)
        rw [hz]
      | cons z cs =>
        show (match cmpNat x z with
              | .eq => cmpRelease xs cs
              | o => o) =
            (match cmpNat x z with
              | .eq => cmpRelease ys cs
              | o => o)
        cases cmpNat x z <;> simp [ih _ hstep]

theorem cmpVersion_swap (a b : PVersion) : cmpVersion b a = (cmpVersion a b).swap := by
  unfold cmpVersion
  rw [cmpNat_swap, cmpRelease_swap]
  cases cmpNat a.epoch b.epoch <;> rfl

theorem cmpVersion_congr (a b : PVersion) (h : cmpVersion a b = .eq) (c : PVersion) :
    cmpVersion a c = cmpVersion b c := by
  unfold cmpVersion at h ⊢
  have hstep : (match cmpNat a.epoch b.epoch with
        | .eq => cmpRelease a.release b.release
        | o => o) = .eq := h
  cases hxy : cmpNat a.epoch b.epoch <;> rw [hxy] at hstep <;> try simp at hstep
  have he : a.epoch = b.epoch := (cmpNat_eq_iff _ _).1 hxy
  rw [he]
  cases cmpNat b.epoch c.epoch <;> simp [cmpRelease_congr _ _ hstep]

/-! ### Lemmas about the cache -/

theorem alistGet_remove (c : List (Addr × SafeStatusRec)) (a : Addr) :
    alistGet (alistRemove c a) a = none := by
  have h : (alistRemove c a).find? (fun p => p.1 == a) = none := by
    rw [List.find?_eq_none]
    intro p hp
    have := (List.mem_filter.mp hp).2
    simpa using this
  simp [alistGet, h]

theorem alistRemove_idem (c : List (Addr × SafeStatusRec)) (a : Addr) :
    alistRemove (alistRemove c a) a = alistRemove c a := by
  simp [alistRemove, List.filter_filter]

theorem alistGet_clearAddresses (c : List (Addr × SafeStatusRec)) (as : List Addr)
    (a : Addr) (ha : a ∈ as) :
    alistGet (clearCacheAddresses c as) a = none := by
  have h : (clearCacheAddresses c as).find? (fun p => p.1 == a) = none := by
    rw [List.find?_eq_none]
    intro p hp
    have hmem := (List.mem_filter.mp hp).2
    simp only [Bool.not_eq_true'] at hmem
    intro hpa
    rw [beq_iff_eq] at hpa
    rw [hpa] at hmem
    simp at hmem
    exact hmem ha
  simp [alistGet, h]

theorem alistGet_put (c : List (Addr × SafeStatusRec)) (a : Addr) (s : SafeStatusRec) :
    alistGet (alistPut c a s) a = some s := by
  simp [alistGet, alistPut, List.find?_cons_of_pos]

/-- A status reported as coming from the cache did come from the cache, and
the lookup then left the state untouched. -/
theorem get_last_fromCache (st : ProcState) (a : Addr) (s : SafeStatusRec)
    (h : (get_last_safe_status_for_address st a).1 = some (s, true)) :
    alistGet st.cache a = some s ∧ (get_last_safe_status_for_address st a).2 = st := by
  cases hc : alistGet st.cache a with
  | some s' =>
    have h2 : get_last_safe_status_for_address st a = (some (s', true), st) := by
      unfold get_last_safe_status_for_address
      rw [hc]
    rw [h2] at h
    simp at h
    subst h
    exact ⟨rfl, by rw [h2]⟩
  | none =>
    exfalso
    unfold get_last_safe_status_for_address at h
    rw [hc] at h
    cases hf : st.db.safeLastStatus.find? (fun r => r.address == a) with
    | some r => rw [hf] at h; simp at h
    | none =>
      rw [hf] at h
      cases hl : last_for_address st.db a with
      | some s2 => rw [hl] at h; simp at h
      | none => rw [hl] at h; simp at h

theorem upsertLastStatus_find (rows : List SafeStatusRec) (s : SafeStatusRec) :
    (upsertLastStatus rows s).find? (fun r => r.address == s.address) = some s := by
  unfold upsertLastStatus
  by_cases h : rows.any (fun r => r.address == s.address) = true
  · simp only [h, if_true]
    induction rows with
    | nil => simp at h
    | cons r rs ih =>
      rw [List.map_cons]
      by_cases hr : (r.address == s.address) = true
      · rw [if_pos hr]
        exact List.find?_cons_of_pos _ (by simp)
      · rw [if_neg hr]
        have hstep : List.find? (fun t => t.address == s.address)
            (r :: rs.map (fun t => if t.address == s.address then s else t)) =
            List.find? (fun t => t.address == s.address)
              (rs.map (fun t => if t.address == s.address then s else t)) :=
          List.find?_cons_of_neg _ hr
        rw [hstep]
        rw [List.any_cons, Bool.or_eq_true] at h
        exact ih (h.resolve_left hr)
  · simp only [h, if_false, Bool.false_eq_true]
    rw [List.find?_append]
    have hnone : rows.find? (fun r => r.address == s.address) = none := by
      rw [List.find?_eq_none]
      intro r hr hcontra
      exact h (List.any_eq_true.mpr ⟨r, hr, hcontra⟩)
    simp [hnone, List.find?_cons_of_pos]

theorem upsertLastStatus_find_addr (rows : List SafeStatusRec) (s : SafeStatusRec) (a : Addr)
    (ha : s.address = a) :
    (upsertLastStatus rows s).find? (fun r => r.address == a) = some s := by
  subst ha
  exact upsertLastStatus_find rows s

/-! ### The `execTransaction` branch only touches the multisig-transaction,
relevant-transaction and confirmation tables before storing the new status -/

theorem multisigTxGetOrCreate_snd_safeStatuses (db : DB) (h : List Nat)
    (dflt : MultisigTxRec) :
    (multisigTxGetOrCreate db h dflt).2.safeStatuses = db.safeStatuses := by
  unfold multisigTxGetOrCreate
  cases db.multisigTxs.find? (fun t => t.safeTxHash == h) <;> rfl

theorem relevantTxGetOrCreate_safeStatuses (db : DB) (i : Nat) (s : Addr) (t : Nat) :
    (relevantTxGetOrCreate db i s t).safeStatuses = db.safeStatuses := by
  unfold relevantTxGetOrCreate
  split <;> rfl

theorem backfillMultisigTx_safeStatuses (db : DB) (h : List Nat) (i : Nat) (f : Bool)
    (sg : List Nat) :
    (backfillMultisigTx db h i f sg).safeStatuses = db.safeStatuses := rfl

theorem confirmationGetOrCreate_snd_safeStatuses (db : DB) (h : List Nat) (o : Addr)
    (dflt : ConfirmationRec) :
    (confirmationGetOrCreate db h o dflt).2.safeStatuses = db.safeStatuses := by
  unfold confirmationGetOrCreate
  cases db.confirmations.find? (fun c => c.multisigTransactionHash == h && c.owner == o) <;> rfl

theorem execSignatureStep_safeStatuses (h : List Nat) (c : Nat) (db : DB) (sig : SigParsed) :
    (execSignatureStep h c db sig).safeStatuses = db.safeStatuses := by
  simp only [execSignatureStep]
  split
  · simp [updateConfirmation, confirmationGetOrCreate_snd_safeStatuses]
  · simp [confirmationGetOrCreate_snd_safeStatuses]

theorem foldl_execSignatureStep_safeStatuses (sigs : List SigParsed) (db : DB)
    (h : List Nat) (c : Nat) :
    (sigs.foldl (execSignatureStep h c) db).safeStatuses = db.safeStatuses := by
  induction sigs generalizing db with
  | nil => rfl
  | cons s ss ih =>
    rw [List.foldl_cons, ih, execSignatureStep_safeStatuses]

theorem ite_db_safeStatuses (c : Prop) [Decidable c] (a b : DB) :
    (if c then a else b).safeStatuses = if c then a.safeStatuses else b.safeStatuses :=
  apply_ite _ _ _ _

/-! ### No step of per-call processing touches the `processed` flags -/

theorem moduleTxGetOrCreate_dp (db : DB) (rec : ModuleTxRec) :
    (moduleTxGetOrCreate db rec).decodedProcessed = db.decodedProcessed := by
  unfold moduleTxGetOrCreate
  split <;> rfl

theorem relevantTxGetOrCreate_dp (db : DB) (i : Nat) (s : Addr) (t : Nat) :
    (relevantTxGetOrCreate db i s t).decodedProcessed = db.decodedProcessed := by
  unfold relevantTxGetOrCreate
  split <;> rfl

theorem multisigTxGetOrCreate_dp (db : DB) (h : List Nat) (dflt : MultisigTxRec) :
    (multisigTxGetOrCreate db h dflt).2.decodedProcessed = db.decodedProcessed := by
  unfold multisigTxGetOrCreate
  split <;> rfl

theorem backfillMultisigTx_dp (db : DB) (h : List Nat) (i : Nat) (f : Bool) (sg : List Nat) :
    (backfillMultisigTx db h i f sg).decodedProcessed = db.decodedProcessed := rfl

theorem confirmationGetOrCreate_dp (db : DB) (h : List Nat) (o : Addr)
    (dflt : ConfirmationRec) :
    (confirmationGetOrCreate db h o dflt).2.decodedProcessed = db.decodedProcessed := by
  unfold confirmationGetOrCreate
  split <;> rfl

theorem updateConfirmation_dp (db : DB) (h : List Nat) (o : Addr)
    (f : ConfirmationRec → ConfirmationRec) :
    (updateConfirmation db h o f).decodedProcessed = db.decodedProcessed := rfl

theorem execSignatureStep_dp (h : List Nat) (c : Nat) (db : DB) (sig : SigParsed) :
    (execSignatureStep h c db sig).decodedProcessed = db.decodedProcessed := by
  simp only [execSignatureStep]
  split
  · simp [updateConfirmation_dp, confirmationGetOrCreate_dp]
  · simp [confirmationGetOrCreate_dp]

theorem foldl_execSignatureStep_dp (sigs : List SigParsed) (db : DB) (h : List Nat) (c : Nat) :
    (sigs.foldl (execSignatureStep h c) db).decodedProcessed = db.decodedProcessed := by
  induction sigs generalizing db with
  | nil => rfl
  | cons s ss ih => rw [List.foldl_cons, ih, execSignatureStep_dp]

theorem ite_db_dp (c : Prop) [Decidable c] (a b : DB) :
    (if c then a else b).decodedProcessed =
      if c then a.decodedProcessed else b.decodedProcessed :=
  apply_ite _ _ _ _

theorem swap_owner_ok_dp (db : DB) (tx : InternalTx) (s : SafeStatusRec) (o : Addr)
    (n : Option Addr) (p : SafeStatusRec × DB) (h : swap_owner db tx s o n = .ok p) :
    p.2.decodedProcessed = db.decodedProcessed := by
  simp only [swap_owner] at h
  split at h
  · simp at h
  · injection h with h2
    subst h2
    cases n
    · rfl
    · simp only []
      split <;> rfl

theorem get_last_dp (st : ProcState) (a : Addr) :
    (get_last_safe_status_for_address st a).2.db.decodedProcessed =
      st.db.decodedProcessed := by
  simp only [get_last_safe_status_for_address]
  split
  · rfl
  · split
    · rfl
    · split <;> rfl

theorem processSetup_dp (st : ProcState) (d : InternalTxDecoded) :
    (processSetup st d).2.db.decodedProcessed = st.db.decodedProcessed := by
  simp only [processSetup, store_new_safe_status]
  repeat' split
  all_goals rfl

theorem processOwnerChange_dp (st : ProcState) (d : InternalTxDecoded) (sls : SafeStatusRec)
    (fc : Bool) :
    (processOwnerChange st d sls fc).2.db.decodedProcessed = st.db.decodedProcessed := by
  simp only [processOwnerChange, store_new_safe_status]
  split
  · split <;> rfl
  · split
    · split <;> rfl
    · next p heq =>
        refine (swap_owner_ok_dp _ _ _ _ _ p heq).trans ?_
        split <;> rfl

theorem processSwapOwner_dp (st : ProcState) (d : InternalTxDecoded) (sls : SafeStatusRec) :
    (processSwapOwner st d sls).2.db.decodedProcessed = st.db.decodedProcessed := by
  simp only [processSwapOwner, store_new_safe_status]
  split
  · rfl
  · next p heq => exact swap_owner_ok_dp _ _ _ _ _ p heq

theorem processChangeMasterCopy_dp (st : ProcState) (d : InternalTxDecoded)
    (sls : SafeStatusRec) :
    (processChangeMasterCopy st d sls).2.db.decodedProcessed = st.db.decodedProcessed := by
  simp only [processChangeMasterCopy, store_new_safe_status]
  repeat' split
  all_goals rfl

theorem processModuleExecution_dp (env : Env) (st : ProcState) (d : InternalTxDecoded) :
    (processModuleExecution env st d).2.db.decodedProcessed = st.db.decodedProcessed := by
  simp only [processModuleExecution]
  split
  · rfl
  · simp [relevantTxGetOrCreate_dp, moduleTxGetOrCreate_dp]

theorem processApproveHash_dp (env : Env) (st : ProcState) (d : InternalTxDecoded) :
    (processApproveHash env st d).2.db.decodedProcessed = st.db.decodedProcessed := by
  simp only [processApproveHash]
  split
  · rfl
  · simp [ite_db_dp, updateConfirmation_dp, confirmationGetOrCreate_dp]

theorem processExecTransaction_dp (env : Env) (st : ProcState) (d : InternalTxDecoded)
    (sls : SafeStatusRec) :
    (processExecTransaction env st d sls).2.db.decodedProcessed = st.db.decodedProcessed := by
  simp only [processExecTransaction, store_new_safe_status]
  simp [foldl_execSignatureStep_dp, ite_db_dp, backfillMultisigTx_dp,
        relevantTxGetOrCreate_dp, multisigTxGetOrCreate_dp]

theorem store_new_safe_status_dp (st : ProcState) (s : SafeStatusRec) (tx : InternalTx) :
    (store_new_safe_status st s tx).db.decodedProcessed = st.db.decodedProcessed := rfl

theorem processWithStatus_dp (env : Env) (st : ProcState) (d : InternalTxDecoded)
    (sls : SafeStatusRec) (fc : Bool) :
    (processWithStatus env st d sls fc).2.db.decodedProcessed = st.db.decodedProcessed := by
  by_cases h1 : d.functionName = "addOwnerWithThreshold"
  · simp [processWithStatus, h1, processOwnerChange_dp]
  by_cases h2 : d.functionName = "removeOwner"
  · simp [processWithStatus, h2, processOwnerChange_dp]
  by_cases h3 : d.functionName = "removeOwnerWithThreshold"
  · simp [processWithStatus, h3, processOwnerChange_dp]
  by_cases h4 : d.functionName = "swapOwner"
  · simp [processWithStatus, h4, processSwapOwner_dp]
  by_cases h5 : d.functionName = "changeThreshold"
  · simp [processWithStatus, h5, store_new_safe_status_dp]
  by_cases h6 : d.functionName = "changeMasterCopy"
  · simp [processWithStatus, h6, processChangeMasterCopy_dp]
  by_cases h7 : d.functionName = "setFallbackHandler"
  · simp [processWithStatus, h7, store_new_safe_status_dp]
  by_cases h8 : d.functionName = "setGuard"
  · simp [processWithStatus, h8, store_new_safe_status_dp]
  by_cases h9 : d.functionName = "enableModule"
  · simp [processWithStatus, h9, store_new_safe_status_dp]
  by_cases h10 : d.functionName = "disableModule"
  · rcases hdm : disable_module sls (d.arguments.module.getD 0) with e | sls1 <;>
      simp [processWithStatus, h10, hdm, store_new_safe_status_dp]
  by_cases h11 : d.functionName = "execTransactionFromModule"
  · simp [processWithStatus, h11, processModuleExecution_dp]
  by_cases h12 : d.functionName = "execTransactionFromModuleReturnData"
  · simp [processWithStatus, h12, processModuleExecution_dp]
  by_cases h13 : d.functionName = "approveHash"
  · simp [processWithStatus, h13, processApproveHash_dp]
  by_cases h14 : d.functionName = "execTransaction"
  · simp [processWithStatus, h14, processExecTransaction_dp]
  simp [processWithStatus, h1, h2, h3, h4, h5, h6, h7, h8, h9, h10, h11, h12, h13, h14]

theorem processDecodedTx_dp (env : Env) (st : ProcState) (d : InternalTxDecoded) :
    (processDecodedTx env st d).2.db.decodedProcessed = st.db.decodedProcessed := by
  simp only [processDecodedTx]
  split
  · rfl
  · split
    · exact processSetup_dp st d
    · rcases hq : get_last_safe_status_for_address st d.internalTx.frm with ⟨o, st1⟩
      have h1 : st1.db.decodedProcessed = st.db.decodedProcessed := by
        have h2 := get_last_dp st d.internalTx.frm
        rw [hq] at h2
        exact h2
      cases o with
      | none => exact h1
      | some q => exact (processWithStatus_dp env st1 d q.1 q.2).trans h1

/-! ### Lemmas about the batch loop -/

theorem exceptMap_error {α β γ : Type} (f : α → β) (x : Except γ α) (e : γ)
    (h : x.map f = .error e) : x = .error e := by
  cases x with
  | error e2 => simpa [Except.map] using h
  | ok v => simp [Except.map] at h

theorem processBatchGo_cons_banned (env : Env) (banned : List Addr) (st : ProcState)
    (d : InternalTxDecoded) (rest : List InternalTxDecoded)
    (hb : banned.contains d.internalTx.frm = true) :
    processBatchGo env banned st (d :: rest) =
      ((processBatchGo env banned st rest).1.map (fun rs => false :: rs),
       (processBatchGo env banned st rest).2) := by
  simp only [processBatchGo]
  rw [if_pos hb]

theorem processBatchGo_cons_ok (env : Env) (banned : List Addr) (st st2 : ProcState)
    (d : InternalTxDecoded) (rest : List InternalTxDecoded) (b : Bool)
    (hb : banned.contains d.internalTx.frm = false)
    (hp : processDecodedTx env st d = (.ok b, st2)) :
    processBatchGo env banned st (d :: rest) =
      ((processBatchGo env banned st2 rest).1.map (fun rs => b :: rs),
       (processBatchGo env banned st2 rest).2) := by
  simp only [processBatchGo]
  rw [if_neg (by simpa using hb), hp]

theorem processBatchGo_cons_cfpt (env : Env) (banned : List Addr) (st st2 : ProcState)
    (d : InternalTxDecoded) (rest : List InternalTxDecoded)
    (hb : banned.contains d.internalTx.frm = false)
    (hp : processDecodedTx env st d = (.error .cannotFindPreviousTrace, st2)) :
    processBatchGo env banned st (d :: rest) = (.error .cannotFindPreviousTrace, st2) := by
  simp only [processBatchGo]
  rw [if_neg (by simpa using hb), hp]
  rfl

theorem processBatchGo_cons_absorb (env : Env) (banned : List Addr) (st st2 : ProcState)
    (d : InternalTxDecoded) (rest : List InternalTxDecoded) (e : PErr)
    (hb : banned.contains d.internalTx.frm = false)
    (hp : processDecodedTx env st d = (.error e, st2))
    (htx : e.isTxProcessorException = true) (hne : e ≠ .cannotFindPreviousTrace) :
    processBatchGo env banned st (d :: rest) =
      ((processBatchGo env banned st2 rest).1.map (fun rs => false :: rs),
       (processBatchGo env banned st2 rest).2) := by
  simp only [processBatchGo]
  rw [if_neg (by simpa using hb), hp]
  have hbe : (e == PErr.cannotFindPreviousTrace) = false := by simp [hne]
  simp [hbe, htx]

theorem processBatchGo_cons_other (env : Env) (banned : List Addr) (st st2 : ProcState)
    (d : InternalTxDecoded) (rest : List InternalTxDecoded) (e : PErr)
    (hb : banned.contains d.internalTx.frm = false)
    (hp : processDecodedTx env st d = (.error e, st2))
    (htx : e.isTxProcessorException = false) :
    processBatchGo env banned st (d :: rest) = (.error e, st2) := by
  have hbe : (e == PErr.cannotFindPreviousTrace) = false := by
    cases e <;> simp_all [PErr.isTxProcessorException]
  simp only [processBatchGo]
  rw [if_neg (by simpa using hb), hp]
  simp [hbe, htx]

/-- The only `TxProcessorException` the per-call loop lets escape is
`CannotFindPreviousTrace`. -/
theorem processBatchGo_error (env : Env) (banned : List Addr) :
    ∀ (txs : List InternalTxDecoded) (st st1 : ProcState) (e : PErr),
      processBatchGo env banned st txs = (.error e, st1) →
      e.isTxProcessorException = true → e = .cannotFindPreviousTrace := by
  intro txs
  induction txs with
  | nil =>
    intro st st1 e h htx
    simp [processBatchGo] at h
  | cons d rest ih =>
    intro st st1 e h htx
    by_cases hb : banned.contains d.internalTx.frm = true
    · rw [processBatchGo_cons_banned env banned st d rest hb] at h
      have h1 : (processBatchGo env banned st rest).1.map (fun rs => false :: rs) =
          .error e := congrArg Prod.fst h
      have h2 : (processBatchGo env banned st rest).2 = st1 := congrArg Prod.snd h
      have h3 : (processBatchGo env banned st rest).1 = .error e := exceptMap_error _ _ _ h1
      have h4 : processBatchGo env banned st rest = (.error e, st1) := by
        rw [← h2, ← h3]
      exact ih st st1 e h4 htx
    · rw [Bool.not_eq_true] at hb
      rcases hp : processDecodedTx env st d with ⟨pres, st2⟩
      cases pres with
      | ok b =>
        rw [processBatchGo_cons_ok env banned st st2 d rest b hb hp] at h
        have h1 : (processBatchGo env banned st2 rest).1.map (fun rs => b :: rs) =
            .error e := congrArg Prod.fst h
        have h2 : (processBatchGo env banned st2 rest).2 = st1 := congrArg Prod.snd h
        have h3 : (processBatchGo env banned st2 rest).1 = .error e := exceptMap_error _ _ _ h1
        have h4 : processBatchGo env banned st2 rest = (.error e, st1) := by
          rw [← h2, ← h3]
        exact ih st2 st1 e h4 htx
      | error e2 =>
        by_cases hc : e2 = PErr.cannotFindPreviousTrace
        · subst hc
          rw [processBatchGo_cons_cfpt env banned st st2 d rest hb hp] at h
          have h1 : Except.error (ε := PErr) (α := List Bool) .cannotFindPreviousTrace =
              .error e := congrArg Prod.fst h
          injection h1 with h3
          exact h3.symm
        · by_cases ht2 : e2.isTxProcessorException = true
          · rw [processBatchGo_cons_absorb env banned st st2 d rest e2 hb hp ht2 hc] at h
            have h1 : (processBatchGo env banned st2 rest).1.map (fun rs => false :: rs) =
                .error e := congrArg Prod.fst h
            have h2 : (processBatchGo env banned st2 rest).2 = st1 := congrArg Prod.snd h
            have h3 : (processBatchGo env banned st2 rest).1 = .error e :=
              exceptMap_error _ _ _ h1
            have h4 : processBatchGo env banned st2 rest = (.error e, st1) := by
              rw [← h2, ← h3]
            exact ih st2 st1 e h4 htx
          · rw [Bool.not_eq_true] at ht2
            rw [processBatchGo_cons_other env banned st st2 d rest e2 hb hp ht2] at h
            have h1 : Except.error (ε := PErr) (α := List Bool) e2 = .error e :=
              congrArg Prod.fst h
            injection h1 with h3
            subst h3
            rw [htx] at ht2
            exact absurd ht2 (by simp)

/-- C10: `is_version_breaking_signatures` is symmetric in its two version
arguments, and it returns `true` exactly when some breaking boundary in the
fixed list (1.0.0, 1.3.0) lies strictly above the smaller normalized base
version and at or below the larger one. -/
theorem claim_C10 (a b : PVersion) :
    is_version_breaking_signatures a b = is_version_breaking_signatures b a ∧
    (is_version_breaking_signatures a b = true ↔
      ∃ bv ∈ signatureBreakingVersions,
        versionLt (if versionLt (baseVersion b) (baseVersion a) then baseVersion b
                   else baseVersion a) bv = true ∧
        versionLe bv (if versionLt (baseVersion b) (baseVersion a) then baseVersion a
                      else baseVersion b) = true) := by
  constructor
  · unfold is_version_breaking_signatures
    cases hc : cmpVersion (baseVersion a) (baseVersion b) with
    | lt =>
      have h1 : versionLt (baseVersion b) (baseVersion a) = false := by
        unfold versionLt; rw [cmpVersion_swap, hc]; rfl
      have h2 : versionLt (baseVersion a) (baseVersion b) = true := by
        unfold versionLt; rw [hc]; rfl
      simp [h1, h2]
    | gt =>
      have h1 : versionLt (baseVersion b) (baseVersion a) = true := by
        unfold versionLt; rw [cmpVersion_swap, hc]; rfl
      have h2 : versionLt (baseVersion a) (baseVersion b) = false := by
        unfold versionLt; rw [hc]; rfl
      simp [h1, h2]
    | eq =>
      have hc' : cmpVersion (baseVersion b) (baseVersion a) = .eq := by
        rw [cmpVersion_swap, hc]; rfl
      have h1 : versionLt (baseVersion b) (baseVersion a) = false := by
        unfold versionLt; rw [hc']; rfl
      have h2 : versionLt (baseVersion a) (baseVersion b) = false := by
        unfold versionLt; rw [hc]; rfl
      have hf : (fun bv =>
            versionLt (baseVersion a) bv && versionLe bv (baseVersion b)) =
          (fun bv =>
            versionLt (baseVersion b) bv && versionLe bv (baseVersion a)) := by
        funext bv
        have e1 : cmpVersion (baseVersion a) bv = cmpVersion (baseVersion b) bv :=
          cmpVersion_congr _ _ hc bv
        have e2 : cmpVersion bv (baseVersion b) = cmpVersion bv (baseVersion a) := by
          rw [cmpVersion_swap (baseVersion b) bv, cmpVersion_swap (baseVersion a) bv,
              cmpVersion_congr _ _ hc' bv]
        unfold versionLt versionLe
        rw [e1, e2]
      simp only [h1, h2, Bool.false_eq_true, if_false]
      rw [hf]
  · by_cases h : versionLt (baseVersion b) (baseVersion a) = true
    · simp [is_version_breaking_signatures, h, List.any_eq_true]
    · rw [Bool.not_eq_true] at h
      simp [is_version_breaking_signatures, h, List.any_eq_true]

/-- Concrete instance of claim C10: migrating between 1.2.0 and 1.4.1 (in
either order) is signature-breaking because 1.3.0 lies between them. -/
theorem claim_C10_witness :
    is_version_breaking_signatures { release := [1, 2, 0] } { release := [1, 4, 1] } =
      is_version_breaking_signatures { release := [1, 4, 1] } { release := [1, 2, 0] } ∧
    is_version_breaking_signatures { release := [1, 2, 0] } { release := [1, 4, 1] } = true := by
  refine ⟨(claim_C10 { release := [1, 2, 0] } { release := [1, 4, 1] }).1, ?_⟩
  refine (claim_C10 { release := [1, 2, 0] } { release := [1, 4, 1] }).2.mpr ?_
  refine ⟨{ release := [1, 3, 0] }, by decide, by decide, by decide⟩

/-- C6: a call whose raw trace consumed less than the fixed gas threshold
(1000) is rejected as unsuccessful before any dispatch on the function
name, and the state is returned unchanged: no wallet record, snapshot,
transaction or confirmation is touched. -/
theorem claim_C6 (env : Env) (st : ProcState) (d : InternalTxDecoded)
    (h : d.internalTx.gasUsed < 1000) :
    processDecodedTx env st d = (.ok false, st) := by
  simp [processDecodedTx, h]

/-- Concrete instance of claim C6: a `setup` call that used 500 gas is
reported unsuccessful and changes nothing. -/
theorem claim_C6_witness :
    ({ internalTx := { id := 7, frm := 10, ethereumTx := { id := 5007 }, gasUsed := 500 },
       functionName := "setup",
       arguments := { owners0 := [100], threshold0 := some 1 } } :
        InternalTxDecoded).internalTx.gasUsed < 1000 ∧
    processDecodedTx wEnv wState
      { internalTx := { id := 7, frm := 10, ethereumTx := { id := 5007 }, gasUsed := 500 },
        functionName := "setup",
        arguments := { owners0 := [100], threshold0 := some 1 } } = (.ok false, wState) :=
  ⟨by decide,
   claim_C6 wEnv wState
     { internalTx := { id := 7, frm := 10, ethereumTx := { id := 5007 }, gasUsed := 500 },
       functionName := "setup",
       arguments := { owners0 := [100], threshold0 := some 1 } }
     (by decide)⟩

/-- Counterexample to claim C3: processing a decoded call whose function
name is exactly `execTransactionFromModule` (no return data) does change
wallet state — it creates a `ModuleTransaction` — because the two-name
module-execution test matches it before the dedicated no-op arm can. -/
theorem claim_C3_counterexample :
    ((processDecodedTx wEnv wState
        (wDecoded 2 "execTransactionFromModule"
          { module := some 42, toAddr := 1, value := 2, data := [9] })).2.db.moduleTxs.map
      (fun m => (m.internalTxId, m.module))) = [(2, 42)] ∧
    wState.db.moduleTxs = [] := by decide

/-- C3 (amended): a decoded `execTransactionFromModule` call is processed by
the same module-execution branch as `execTransactionFromModuleReturnData`
(tx_processor.py lines 587-657), with identical results and state changes;
the dedicated no-state-change arm for the exact name (lines 813-817) is
unreachable. -/
theorem claim_C3 (env : Env) (st : ProcState) (d : InternalTxDecoded)
    (h : d.functionName = "execTransactionFromModule") :
    processDecodedTx env st d =
      processDecodedTx env st
        { d with functionName := "execTransactionFromModuleReturnData" } := by
  simp only [processDecodedTx, processWithStatus, h]
  rfl

/-- Concrete instance of claim C3 (amended): the module call of the
counterexample processes identically under both function names. -/
theorem claim_C3_witness :
    processDecodedTx wEnv wState
      (wDecoded 2 "execTransactionFromModule"
        { module := some 42, toAddr := 1, value := 2, data := [9] }) =
      processDecodedTx wEnv wState
        { wDecoded 2 "execTransactionFromModule"
            { module := some 42, toAddr := 1, value := 2, data := [9] } with
          functionName := "execTransactionFromModuleReturnData" } :=
  claim_C3 wEnv wState
    (wDecoded 2 "execTransactionFromModule"
      { module := some 42, toAddr := 1, value := 2, data := [9] })
    (by decide)

/-- Counterexample to claim C9: in the `approveHash` owner resolution a
transient RPC error raised by the previous-trace lookup is not treated as
"no trace found" — it surfaces as the uncaught RPC error itself, not as
`CannotFindPreviousTrace`. -/
theorem claim_C9_counterexample :
    (processDecodedTx wEnvRpcError wState
        (wDecoded 3 "approveHash" { hashToApprove := [7] })).1 =
      .error .web3RPCError := by decide

/-- C9 (amended): only the module-execution resolution treats a transient
RPC error from the previous-trace lookup the same as "no trace found",
surfacing it as the hard failure `CannotFindPreviousTrace` (as it also does
when the lookup genuinely finds nothing); in the `approveHash` owner
resolution the lookup is not wrapped, so the RPC error propagates uncaught
instead. -/
theorem claim_C9 :
    (∀ (env : Env) (st : ProcState) (d : InternalTxDecoded) (q : SafeStatusRec × Bool),
      (d.functionName = "execTransactionFromModule" ∨
        d.functionName = "execTransactionFromModuleReturnData") →
      1000 ≤ d.internalTx.gasUsed →
      d.arguments.module = none →
      (get_last_safe_status_for_address st d.internalTx.frm).1 = some q →
      (env.getPreviousTrace d.internalTx.ethereumTx.id d.internalTx.traceAddress = .error () ∨
        env.getPreviousTrace d.internalTx.ethereumTx.id d.internalTx.traceAddress = .ok none) →
      processDecodedTx env st d =
        (.error .cannotFindPreviousTrace,
         (get_last_safe_status_for_address st d.internalTx.frm).2)) ∧
    (∀ (env : Env) (st : ProcState) (d : InternalTxDecoded) (q : SafeStatusRec × Bool),
      d.functionName = "approveHash" →
      1000 ≤ d.internalTx.gasUsed →
      d.arguments.owner = none →
      (get_last_safe_status_for_address st d.internalTx.frm).1 = some q →
      env.getPreviousTrace d.internalTx.ethereumTx.id d.internalTx.traceAddress = .error () →
      processDecodedTx env st d =
        (.error .web3RPCError,
         (get_last_safe_status_for_address st d.internalTx.frm).2)) := by
  constructor
  · intro env st d q hfn hgas hmod hstatus htrace
    have hgas' : ¬ d.internalTx.gasUsed < 1000 := Nat.not_lt.mpr hgas
    rcases hq : get_last_safe_status_for_address st d.internalTx.frm with ⟨o, st2⟩
    rw [hq] at hstatus
    have ho : o = some q := hstatus
    subst ho
    rcases htrace with htrace | htrace <;> rcases hfn with hfn | hfn <;>
      simp [processDecodedTx, processWithStatus, processModuleExecution,
            hfn, hgas', hq, hmod, htrace]
  · intro env st d q hfn hgas howner hstatus htrace
    have hgas' : ¬ d.internalTx.gasUsed < 1000 := Nat.not_lt.mpr hgas
    rcases hq : get_last_safe_status_for_address st d.internalTx.frm with ⟨o, st2⟩
    rw [hq] at hstatus
    have ho : o = some q := hstatus
    subst ho
    simp [processDecodedTx, processWithStatus, processApproveHash,
          hfn, hgas', hq, howner, htrace]

/-- Concrete instances of claim C9 (amended): the module branch turns both
an RPC error and a missing trace into `CannotFindPreviousTrace`; the
`approveHash` branch lets the RPC error escape. -/
theorem claim_C9_witness :
    processDecodedTx wEnvRpcError wState (wDecoded 4 "execTransactionFromModuleReturnData" {}) =
      (.error .cannotFindPreviousTrace, wState) ∧
    processDecodedTx wEnvRpcError wState (wDecoded 3 "approveHash" { hashToApprove := [7] }) =
      (.error .web3RPCError, wState) := by
  constructor
  · have h := claim_C9.1 wEnvRpcError wState
      (wDecoded 4 "execTransactionFromModuleReturnData" {}) (wStatus, false)
      (Or.inr (by decide)) (by decide) (by decide) (by decide) (Or.inl (by decide))
    simpa using h
  · have h := claim_C9.2 wEnvRpcError wState
      (wDecoded 3 "approveHash" { hashToApprove := [7] }) (wStatus, false)
      (by decide) (by decide) (by decide) (by decide) (by decide)
    simpa using h

/-- C7: processing a `removeOwner`, `removeOwnerWithThreshold` or
`swapOwner` call whose target owner is absent from the current owner list
raises the distinguished `OwnerCannotBeRemoved` error, stores no snapshot
and changes nothing in the database, and leaves the wallet's owner list
unchanged in the cache as well. -/
theorem claim_C7 (env : Env) (st : ProcState) (d : InternalTxDecoded) (q : SafeStatusRec × Bool)
    (hfn : d.functionName = "removeOwner" ∨ d.functionName = "removeOwnerWithThreshold" ∨
      d.functionName = "swapOwner")
    (hgas : 1000 ≤ d.internalTx.gasUsed)
    (hstatus : (get_last_safe_status_for_address st d.internalTx.frm).1 = some q)
    (howner : (if d.functionName == "swapOwner" then d.arguments.oldOwner
               else d.arguments.owner.getD 0) ∉ q.1.owners) :
    (processDecodedTx env st d).1 = .error .ownerCannotBeRemoved ∧
    (processDecodedTx env st d).2.db =
      (get_last_safe_status_for_address st d.internalTx.frm).2.db ∧
    (alistGet (processDecodedTx env st d).2.cache d.internalTx.frm).map (fun s => s.owners) =
      (alistGet (get_last_safe_status_for_address st d.internalTx.frm).2.cache
        d.internalTx.frm).map (fun s => s.owners) := by
  have hgas' : ¬ d.internalTx.gasUsed < 1000 := Nat.not_lt.mpr hgas
  rcases q with ⟨sls, fc⟩
  rcases hq : get_last_safe_status_for_address st d.internalTx.frm with ⟨o, st1⟩
  rw [hq] at hstatus
  have ho : o = some (sls, fc) := hstatus
  subst ho
  rcases hfn with h | h | h
  · rw [h] at howner
    have howner2 : d.arguments.owner.getD 0 ∉ sls.owners := by simpa using howner
    cases fc with
    | false =>
      refine ⟨?_, ?_, ?_⟩ <;>
        simp [processDecodedTx, processWithStatus, processOwnerChange, swap_owner,
              h, hgas', hq, howner2]
    | true =>
      have hfc := get_last_fromCache st d.internalTx.frm sls (by rw [hq])
      have hst : st1 = st := by
        have h2 := hfc.2
        rw [hq] at h2
        exact h2
      refine ⟨?_, ?_, ?_⟩ <;>
        simp [processDecodedTx, processWithStatus, processOwnerChange, swap_owner,
              h, hgas', hq, howner2, alistGet_put, hst, hfc.1]
  · rw [h] at howner
    have howner2 : d.arguments.owner.getD 0 ∉ sls.owners := by simpa using howner
    cases fc with
    | false =>
      refine ⟨?_, ?_, ?_⟩ <;>
        simp [processDecodedTx, processWithStatus, processOwnerChange, swap_owner,
              h, hgas', hq, howner2]
    | true =>
      have hfc := get_last_fromCache st d.internalTx.frm sls (by rw [hq])
      have hst : st1 = st := by
        have h2 := hfc.2
        rw [hq] at h2
        exact h2
      refine ⟨?_, ?_, ?_⟩ <;>
        simp [processDecodedTx, processWithStatus, processOwnerChange, swap_owner,
              h, hgas', hq, howner2, alistGet_put, hst, hfc.1]
  · rw [h] at howner
    have howner2 : d.arguments.oldOwner ∉ sls.owners := by simpa using howner
    refine ⟨?_, ?_, ?_⟩ <;>
      simp [processDecodedTx, processWithStatus, processSwapOwner, swap_owner,
            h, hgas', hq, howner2]

/-- Concrete instance of claim C7: removing owner 555 from a wallet owned
by [100, 101] fails with `OwnerCannotBeRemoved` and leaves the database and
the cached owner list unchanged. -/
theorem claim_C7_witness :
    (processDecodedTx wEnv wState
        (wDecoded 6 "removeOwner" { owner := some 555, threshold0 := some 2 })).1 =
      .error .ownerCannotBeRemoved ∧
    (processDecodedTx wEnv wState
        (wDecoded 6 "removeOwner" { owner := some 555, threshold0 := some 2 })).2.db =
      (get_last_safe_status_for_address wState 10).2.db ∧
    (alistGet (processDecodedTx wEnv wState
        (wDecoded 6 "removeOwner" { owner := some 555, threshold0 := some 2 })).2.cache
        10).map (fun s => s.owners) =
      (alistGet (get_last_safe_status_for_address wState 10).2.cache 10).map
        (fun s => s.owners) :=
  claim_C7 wEnv wState (wDecoded 6 "removeOwner" { owner := some 555, threshold0 := some 2 })
    (wStatus, false) (Or.inl (by decide)) (by decide) (by decide) (by decide)

/-- C2: processing an `execTransaction` call succeeds and, with N the
resolved nonce (the explicit `nonce` argument when present — the L2 event
path — else the looked-up status nonce), sets the wallet's cached latest
nonce to exactly N+1, both in the cache and in the `SafeLastStatus` row,
and appends exactly one new snapshot carrying that nonce.  (`haddr` records
that the looked-up status belongs to the calling Safe, which holds for
every status the processor itself stores.) -/
theorem claim_C2 (env : Env) (st : ProcState) (d : InternalTxDecoded) (q : SafeStatusRec × Bool)
    (hfn : d.functionName = "execTransaction")
    (hgas : 1000 ≤ d.internalTx.gasUsed)
    (hstatus : (get_last_safe_status_for_address st d.internalTx.frm).1 = some q)
    (haddr : q.1.address = d.internalTx.frm) :
    (processDecodedTx env st d).1 = .ok true ∧
    (alistGet (processDecodedTx env st d).2.cache d.internalTx.frm).map (fun s => s.nonce) =
      some (d.arguments.nonce.getD q.1.nonce + 1) ∧
    ((processDecodedTx env st d).2.db.safeLastStatus.find?
        (fun r => r.address == d.internalTx.frm)).map (fun s => s.nonce) =
      some (d.arguments.nonce.getD q.1.nonce + 1) ∧
    ∃ snap, (processDecodedTx env st d).2.db.safeStatuses =
        (get_last_safe_status_for_address st d.internalTx.frm).2.db.safeStatuses ++ [snap] ∧
      snap.nonce = d.arguments.nonce.getD q.1.nonce + 1 ∧
      snap.address = d.internalTx.frm := by
  have hgas' : ¬ d.internalTx.gasUsed < 1000 := Nat.not_lt.mpr hgas
  rcases q with ⟨sls, fc⟩
  rcases hq : get_last_safe_status_for_address st d.internalTx.frm with ⟨o, st1⟩
  rw [hq] at hstatus
  have ho : o = some (sls, fc) := hstatus
  subst ho
  have haddr' : sls.address = d.internalTx.frm := haddr
  have hred : processDecodedTx env st d = processExecTransaction env st1 d sls := by
    simp [processDecodedTx, processWithStatus, hfn, hgas', hq]
  rw [hred]
  refine ⟨?_, ?_, ?_, ?_⟩
  · simp [processExecTransaction]
  · simp [processExecTransaction, store_new_safe_status, haddr', alistGet_put]
  · simp [processExecTransaction, store_new_safe_status, haddr', upsertLastStatus_find_addr]
  · refine ⟨{ sls with
        nonce := d.arguments.nonce.getD sls.nonce + 1
        internalTxId := d.internalTx.id
        blockNumber := d.internalTx.blockNumber
        transactionIndex := d.internalTx.ethereumTx.transactionIndex }, ?_, rfl, haddr'⟩
    simp [processExecTransaction, store_new_safe_status, ite_db_safeStatuses,
          multisigTxGetOrCreate_snd_safeStatuses, relevantTxGetOrCreate_safeStatuses,
          backfillMultisigTx_safeStatuses, foldl_execSignatureStep_safeStatuses]

/-- Concrete instance of claim C2: an `execTransaction` without an explicit
nonce on a wallet whose status nonce is 4 succeeds and advances the cached
nonce, the status row and the new snapshot to 5. -/
theorem claim_C2_witness :
    (processDecodedTx wEnv wState (wDecoded 9 "execTransaction" { dataGas := 1 })).1 =
      .ok true ∧
    (alistGet (processDecodedTx wEnv wState
        (wDecoded 9 "execTransaction" { dataGas := 1 })).2.cache 10).map (fun s => s.nonce) =
      some 5 ∧
    ((processDecodedTx wEnv wState
        (wDecoded 9 "execTransaction" { dataGas := 1 })).2.db.safeLastStatus.find?
        (fun r => r.address == 10)).map (fun s => s.nonce) = some 5 ∧
    ((processDecodedTx wEnv wState
        (wDecoded 9 "execTransaction" { dataGas := 1 })).2.db.safeStatuses.map
      (fun s => (s.nonce, s.address))) = [(5, 10)] := by
  have h := claim_C2 wEnv wState (wDecoded 9 "execTransaction" { dataGas := 1 })
    (wStatus, false) (by decide) (by decide) (by decide) (by decide)
  exact ⟨h.1, h.2.1, h.2.2.1, by decide⟩

/-- C8: a `changeMasterCopy` call for which both the old and the new master
copy versions are known and the transition is signature-breaking deletes
exactly the wallet's queued transactions — the not-executed ones whose
nonce exceeds the last executed nonce — keeps every already-executed one,
and updates the wallet's cached master copy.  (`haddr` records that the
looked-up status belongs to the calling Safe, which holds for every status
the processor itself stores.) -/
theorem claim_C8 (env : Env) (st : ProcState) (d : InternalTxDecoded) (q : SafeStatusRec × Bool)
    (v1 v2 : PVersion)
    (hfn : d.functionName = "changeMasterCopy")
    (hgas : 1000 ≤ d.internalTx.gasUsed)
    (hstatus : (get_last_safe_status_for_address st d.internalTx.frm).1 = some q)
    (haddr : q.1.address = d.internalTx.frm)
    (hv1 : get_safe_version_from_master_copy
      (get_last_safe_status_for_address st d.internalTx.frm).2.db q.1.masterCopy = some v1)
    (hv2 : get_safe_version_from_master_copy
      (get_last_safe_status_for_address st d.internalTx.frm).2.db d.arguments.masterCopy0 =
        some v2)
    (hbreak : is_version_breaking_signatures v1 v2 = true) :
    (processDecodedTx env st d).1 = .ok true ∧
    (processDecodedTx env st d).2.db.multisigTxs =
      (get_last_safe_status_for_address st d.internalTx.frm).2.db.multisigTxs.filter
        (fun t => !(isQueued (get_last_safe_status_for_address st d.internalTx.frm).2.db
          d.internalTx.frm t)) ∧
    (∀ t ∈ (get_last_safe_status_for_address st d.internalTx.frm).2.db.multisigTxs,
      t.ethereumTxId.isSome = true → t ∈ (processDecodedTx env st d).2.db.multisigTxs) ∧
    (alistGet (processDecodedTx env st d).2.cache d.internalTx.frm).map
      (fun s => s.masterCopy) = some d.arguments.masterCopy0 := by
  have hgas' : ¬ d.internalTx.gasUsed < 1000 := Nat.not_lt.mpr hgas
  rcases q with ⟨sls, fc⟩
  rcases hq : get_last_safe_status_for_address st d.internalTx.frm with ⟨o, st1⟩
  rw [hq] at hstatus hv1 hv2
  have ho : o = some (sls, fc) := hstatus
  subst ho
  have hv1' : get_safe_version_from_master_copy st1.db sls.masterCopy = some v1 := hv1
  have hv2' : get_safe_version_from_master_copy st1.db d.arguments.masterCopy0 = some v2 := hv2
  have haddr' : sls.address = d.internalTx.frm := haddr
  have heq : (processDecodedTx env st d).2.db.multisigTxs =
      st1.db.multisigTxs.filter (fun t => !(isQueued st1.db d.internalTx.frm t)) := by
    simp [processDecodedTx, processWithStatus, processChangeMasterCopy,
          store_new_safe_status, deleteQueuedTransactions, hfn, hgas', hq, hv1', hv2', hbreak]
  refine ⟨?_, ?_, ?_, ?_⟩
  · simp [processDecodedTx, processWithStatus, processChangeMasterCopy, hfn, hgas', hq,
          hv1', hv2', hbreak]
  · rw [heq]
  · intro t htmem hexec
    rcases Option.isSome_iff_exists.mp hexec with ⟨x, hx⟩
    rw [heq, List.mem_filter]
    refine ⟨htmem, ?_⟩
    simp [isQueued, hx]
  · simp [processDecodedTx, processWithStatus, processChangeMasterCopy,
          store_new_safe_status, hfn, hgas', hq, hv1', hv2', hbreak, haddr', alistGet_put]

/-- A state for exercising `changeMasterCopy`: master copies 900 (v1.1.1)
and 901 (v1.3.0), one executed transaction (nonce 2) and one queued
transaction (nonce 5) for Safe address 10. -/
def wMcState : ProcState :=
  { db := { safeLastStatus := [wStatus],
            masterCopyVersions := [(900, { release := [1, 1, 1] }), (901, { release := [1, 3, 0] })],
            multisigTxs :=
              [{ safeTxHash := [1], safe := 10, nonce := 2, ethereumTxId := some 70 },
               { safeTxHash := [2], safe := 10, nonce := 5, ethereumTxId := none }] } }

/-- Concrete instance of claim C8: migrating Safe 10 from master copy 900
(v1.1.1) to 901 (v1.3.0) crosses the chain-id boundary, deletes the queued
transaction, keeps the executed one and sets the master copy to 901. -/
theorem claim_C8_witness :
    (processDecodedTx wEnv wMcState (wDecoded 8 "changeMasterCopy" { masterCopy0 := 901 })).1 =
      .ok true ∧
    (processDecodedTx wEnv wMcState
        (wDecoded 8 "changeMasterCopy" { masterCopy0 := 901 })).2.db.multisigTxs =
      (get_last_safe_status_for_address wMcState 10).2.db.multisigTxs.filter
        (fun t => !(isQueued (get_last_safe_status_for_address wMcState 10).2.db 10 t)) ∧
    ({ safeTxHash := [1], safe := 10, nonce := 2, ethereumTxId := some 70 } : MultisigTxRec) ∈
      (processDecodedTx wEnv wMcState
        (wDecoded 8 "changeMasterCopy" { masterCopy0 := 901 })).2.db.multisigTxs ∧
    (alistGet (processDecodedTx wEnv wMcState
        (wDecoded 8 "changeMasterCopy" { masterCopy0 := 901 })).2.cache 10).map
      (fun s => s.masterCopy) = some 901 := by
  have h := claim_C8 wEnv wMcState (wDecoded 8 "changeMasterCopy" { masterCopy0 := 901 })
    (wStatus, false) { release := [1, 1, 1] } { release := [1, 3, 0] }
    (by decide) (by decide) (by decide) (by decide) (by decide) (by decide) (by decide)
  exact ⟨h.1, h.2.1,
    h.2.2.1 { safeTxHash := [1], safe := 10, nonce := 2, ethereumTxId := some 70 }
      (by decide) (by decide), h.2.2.2⟩

/-- A state whose cache holds a stale entry (nonce 9) for Safe address 10
while the database row has nonce 4. -/
def wStaleState : ProcState :=
  { db := { safeLastStatus := [wStatus] },
    cache := [(10, { wStatus with nonce := 9 })] }

/-- Counterexample to claim C5: the batch operation does not invalidate a
touched wallet's cache entry before starting.  With a stale cache entry
(nonce 9) present, an `execTransaction` without an explicit nonce produces a
snapshot with nonce 10; had the entry been invalidated before the batch
started, the database row (nonce 4) would have been used and the snapshot
would carry nonce 5. -/
theorem claim_C5_counterexample :
    ((process_decoded_transactions wEnv wStaleState
        [wDecoded 5 "execTransaction" { dataGas := 1 }]).2.db.safeStatuses.map
      (fun s => s.nonce)) = [10] ∧
    ((process_decoded_transactions wEnv { wStaleState with cache := [] }
        [wDecoded 5 "execTransaction" { dataGas := 1 }]).2.db.safeStatuses.map
      (fun s => s.nonce)) = [5] := by decide

/-- C5 (amended): the batch operation invalidates every touched wallet's
cache entry after it finishes — in its `finally` block, hence also on
failure — but not before it starts; the single-call variant clears the
touched wallet's cache entry both before and after, even on internal
failure (clearing before is expressed as insensitivity to a pre-existing
entry for the touched address). -/
theorem claim_C5 :
    (∀ (env : Env) (st : ProcState) (txs : List InternalTxDecoded) (a : Addr),
      a ∈ txs.map (fun d => d.internalTx.frm) →
      alistGet (process_decoded_transactions env st txs).2.cache a = none) ∧
    (∀ (env : Env) (st : ProcState) (d : InternalTxDecoded),
      process_decoded_transaction env st d =
        process_decoded_transaction env
          { st with cache := alistRemove st.cache d.internalTx.frm } d) ∧
    (∀ (env : Env) (st : ProcState) (d : InternalTxDecoded),
      alistGet (process_decoded_transaction env st d).2.cache d.internalTx.frm = none) := by
  refine ⟨?_, ?_, ?_⟩
  · intro env st txs a ha
    unfold process_decoded_transactions
    by_cases he : txs.isEmpty
    · rw [List.isEmpty_iff] at he
      subst he
      simp at ha
    · simp only [he, if_false, Bool.false_eq_true]
      rcases hr : processBatchGo env
          (get_banned_addresses st.db (txs.map fun d => d.internalTx.frm)) st txs with ⟨r, st1⟩
      cases r with
      | ok results => simp [hr, alistGet_clearAddresses _ _ _ ha]
      | error e => simp [hr, alistGet_clearAddresses _ _ _ ha]
  · intro env st d
    unfold process_decoded_transaction
    simp [alistRemove_idem]
  · intro env st d
    unfold process_decoded_transaction
    rcases hr : processDecodedTx env
        { st with cache := alistRemove st.cache d.internalTx.frm } d with ⟨r, st2⟩
    cases r <;> simp [hr, alistGet_remove]

/-- Concrete instances of claim C5 (amended): after the batch of the
counterexample the touched address 10 is gone from the cache; the single
call behaves identically with the stale entry pre-removed, and clears the
entry afterwards. -/
theorem claim_C5_witness :
    alistGet (process_decoded_transactions wEnv wStaleState
      [wDecoded 5 "execTransaction" { dataGas := 1 }]).2.cache 10 = none ∧
    process_decoded_transaction wEnv wStaleState (wDecoded 5 "execTransaction" { dataGas := 1 }) =
      process_decoded_transaction wEnv
        { wStaleState with
          cache := alistRemove wStaleState.cache
            (wDecoded 5 "execTransaction" { dataGas := 1 }).internalTx.frm }
        (wDecoded 5 "execTransaction" { dataGas := 1 }) ∧
    alistGet (process_decoded_transaction wEnv wStaleState
      (wDecoded 5 "execTransaction" { dataGas := 1 })).2.cache 10 = none :=
  ⟨claim_C5.1 wEnv wStaleState [wDecoded 5 "execTransaction" { dataGas := 1 }] 10 (by decide),
   claim_C5.2.1 wEnv wStaleState (wDecoded 5 "execTransaction" { dataGas := 1 }),
   claim_C5.2.2 wEnv wStaleState (wDecoded 5 "execTransaction" { dataGas := 1 })⟩

/-- C4: every input call of a batch is marked processed exactly once, by
the single bulk update at the end of the batch: per-call processing never
touches the `processed` flags, and when the batch completes, every input
call's internal-transaction id — successes, domain rejections and
banned-wallet skips alike — is marked processed in the final state. -/
theorem claim_C4 :
    (∀ (env : Env) (st : ProcState) (d : InternalTxDecoded),
      (processDecodedTx env st d).2.db.decodedProcessed = st.db.decodedProcessed) ∧
    (∀ (env : Env) (st : ProcState) (txs : List InternalTxDecoded)
        (results : List Bool) (st' : ProcState),
      process_decoded_transactions env st txs = (.ok results, st') →
      ∀ d ∈ txs, d.internalTx.id ∈ st'.db.decodedProcessed) := by
  refine ⟨processDecodedTx_dp, ?_⟩
  intro env st txs results st' hrun d hd
  unfold process_decoded_transactions at hrun
  by_cases he : txs.isEmpty
  · rw [List.isEmpty_iff] at he
    subst he
    simp at hd
  · simp only [he, if_false, Bool.false_eq_true] at hrun
    rcases hr : processBatchGo env
        (get_banned_addresses st.db (txs.map fun d => d.internalTx.frm)) st txs with ⟨r, st1⟩
    rw [hr] at hrun
    cases r with
    | error e => simp at hrun
    | ok rs =>
      rw [Prod.mk.injEq] at hrun
      obtain ⟨h1, h2⟩ := hrun
      subst h2
      exact List.mem_union_iff.mpr (Or.inr (List.mem_map_of_mem _ hd))

/-- Concrete instance of claim C4: one `execTransaction` call neither marks
itself processed during per-call processing, yet ends marked processed by
the batch's bulk update. -/
theorem claim_C4_witness :
    (processDecodedTx wEnv wState
      (wDecoded 9 "execTransaction" { dataGas := 1 })).2.db.decodedProcessed =
      wState.db.decodedProcessed ∧
    (wDecoded 9 "execTransaction" { dataGas := 1 }).internalTx.id ∈
      (process_decoded_transactions wEnv wState
        [wDecoded 9 "execTransaction" { dataGas := 1 }]).2.db.decodedProcessed := by
  constructor
  · exact claim_C4.1 wEnv wState (wDecoded 9 "execTransaction" { dataGas := 1 })
  · exact claim_C4.2 wEnv wState [wDecoded 9 "execTransaction" { dataGas := 1 }]
      [true]
      (process_decoded_transactions wEnv wState
        [wDecoded 9 "execTransaction" { dataGas := 1 }]).2
      (by decide) (wDecoded 9 "execTransaction" { dataGas := 1 }) (by decide)

/-- Counterexample to claim C1: `CannotFindPreviousTrace` is not the only
error kind that crosses the batch boundary — a transient RPC error raised
during `approveHash` owner resolution is not a `TxProcessorException`, is
caught by neither handler of the batch loop, and aborts the whole batch as
itself. -/
theorem claim_C1_counterexample :
    (process_decoded_transactions wEnvRpcError wState
        [wDecoded 3 "approveHash" { hashToApprove := [7] }]).1 = .error .web3RPCError ∧
    PErr.web3RPCError ≠ PErr.cannotFindPreviousTrace := by decide

/-- C1 (amended): a per-call `TxProcessorException` other than
`CannotFindPreviousTrace` (owner not found, module not found) is absorbed
for that one call only — the result vector records `false` for it and
processing continues with the next call from the partially-updated state —
whereas `CannotFindPreviousTrace` aborts the whole batch immediately and
propagates to the caller; it is the only `TxProcessorException` kind that
crosses the batch boundary (an uncaught non-processor error such as the
`approveHash` RPC error also crosses it). -/
theorem claim_C1 :
    (∀ (env : Env) (st : ProcState) (txs : List InternalTxDecoded) (e : PErr)
        (st' : ProcState),
      process_decoded_transactions env st txs = (.error e, st') →
      e.isTxProcessorException = true → e = .cannotFindPreviousTrace) ∧
    (∀ (env : Env) (banned : List Addr) (st st1 : ProcState) (d : InternalTxDecoded)
        (rest : List InternalTxDecoded),
      banned.contains d.internalTx.frm = false →
      processDecodedTx env st d = (.error .cannotFindPreviousTrace, st1) →
      processBatchGo env banned st (d :: rest) = (.error .cannotFindPreviousTrace, st1)) ∧
    (∀ (env : Env) (banned : List Addr) (st st1 : ProcState) (d : InternalTxDecoded)
        (rest : List InternalTxDecoded) (e : PErr),
      banned.contains d.internalTx.frm = false →
      processDecodedTx env st d = (.error e, st1) →
      e.isTxProcessorException = true → e ≠ .cannotFindPreviousTrace →
      processBatchGo env banned st (d :: rest) =
        ((processBatchGo env banned st1 rest).1.map (fun rs => false :: rs),
         (processBatchGo env banned st1 rest).2)) := by
  refine ⟨?_, ?_, ?_⟩
  · intro env st txs e st' hrun htx
    unfold process_decoded_transactions at hrun
    by_cases he : txs.isEmpty
    · rw [if_pos he] at hrun
      simp at hrun
    · simp only [he, if_false, Bool.false_eq_true] at hrun
      rcases hr : processBatchGo env
          (get_banned_addresses st.db (txs.map fun d => d.internalTx.frm)) st txs with ⟨r, st1⟩
      rw [hr] at hrun
      cases r with
      | ok rs => simp at hrun
      | error e2 =>
        rw [Prod.mk.injEq] at hrun
        obtain ⟨h1, h2⟩ := hrun
        injection h1 with h3
        subst h3
        exact processBatchGo_error env _ txs st st1 _ hr htx
  · intro env banned st st1 d rest hb hp
    exact processBatchGo_cons_cfpt env banned st st1 d rest hb hp
  · intro env banned st st1 d rest e hb hp htx hne
    exact processBatchGo_cons_absorb env banned st st1 d rest e hb hp htx hne

/-- Concrete instances of claim C1 (amended): a batch whose only call hits
an unresolvable trace propagates `CannotFindPreviousTrace`; a two-call
batch whose head hits it aborts before the second call; a two-call batch
whose head raises `OwnerCannotBeRemoved` records `false` for it and
continues with the second call. -/
theorem claim_C1_witness :
    PErr.cannotFindPreviousTrace = PErr.cannotFindPreviousTrace ∧
    processBatchGo wEnvNoTrace [] wState
        [wDecoded 4 "execTransactionFromModuleReturnData" {},
         wDecoded 5 "changeThreshold" { threshold0 := some 3 }] =
      (.error .cannotFindPreviousTrace, wState) ∧
    processBatchGo wEnv [] wState
        [wDecoded 6 "removeOwner" { owner := some 555, threshold0 := some 2 },
         wDecoded 5 "changeThreshold" { threshold0 := some 3 }] =
      ((processBatchGo wEnv []
          (processDecodedTx wEnv wState
            (wDecoded 6 "removeOwner" { owner := some 555, threshold0 := some 2 })).2
          [wDecoded 5 "changeThreshold" { threshold0 := some 3 }]).1.map
        (fun rs => false :: rs),
       (processBatchGo wEnv []
          (processDecodedTx wEnv wState
            (wDecoded 6 "removeOwner" { owner := some 555, threshold0 := some 2 })).2
          [wDecoded 5 "changeThreshold" { threshold0 := some 3 }]).2) := by
  refine ⟨?_, ?_, ?_⟩
  · exact claim_C1.1 wEnvNoTrace wState
      [wDecoded 4 "execTransactionFromModuleReturnData" {}]
      PErr.cannotFindPreviousTrace
      (process_decoded_transactions wEnvNoTrace wState
        [wDecoded 4 "execTransactionFromModuleReturnData" {}]).2
      (by decide) (by decide)
  · exact claim_C1.2.1 wEnvNoTrace [] wState wState
      (wDecoded 4 "execTransactionFromModuleReturnData" {})
      [wDecoded 5 "changeThreshold" { threshold0 := some 3 }] (by decide) (by decide)
  · exact claim_C1.2.2 wEnv [] wState
      (processDecodedTx wEnv wState
        (wDecoded 6 "removeOwner" { owner := some 555, threshold0 := some 2 })).2
      (wDecoded 6 "removeOwner" { owner := some 555, threshold0 := some 2 })
      [wDecoded 5 "changeThreshold" { threshold0 := some 3 }]
      PErr.ownerCannotBeRemoved (by decide) (by decide) (by decide) (by decide)

end SafeTxService
